import Mathlib

/-!
Shallow embedding of the NotebookLM sidecar orchestrator
(src/python-sidecar/notebooklm_sidecar.py) of the AutoMeetsSlide repository.

The sidecar is a command-line process.  All remote actions are delegated to an
external workspace client (the notebooklm package), which is not part of the
repository; it is modelled here as an environment of response functions.  Every
observable action of the orchestrator (a JSON line printed to stdout, a client
call, a directory creation) is recorded as an event in a trace, so that the
spec claims about emitted events and about which remote operations are or are
not invoked become statements about traces.
-/

set_option maxRecDepth 4000

/-- A Python exception, reduced to its class name and message. -/
structure PyExc where
  name : String
  msg : String
deriving DecidableEq, Repr

/-- Result object of a remote source upload (fields used by the sidecar). -/
structure SourceObj where
  id : String
  title : String
deriving DecidableEq, Repr

/-- Result object of a generation call or a status poll (fields used). -/
structure GenStatus where
  task_id : String
  status : String
  is_complete : Bool
  is_failed : Bool
deriving DecidableEq, Repr

/-- A remote notebook as listed by the client (fields used). -/
structure Notebook where
  id : String
  title : String
deriving DecidableEq, Repr

/-- A remote artifact as listed by the client.  The has_kind field models the
Python hasattr check on the kind attribute. -/
structure Artifact where
  id : String
  has_kind : Bool
  kind : String
  is_completed : Bool
  is_processing : Bool
  is_failed : Bool
deriving DecidableEq, Repr

/-! ### Python string containment (the in operator) -/

/-- Boolean test that the first list is an initial segment of the second. -/
def beginsWith : List Char → List Char → Bool
  | [], _ => true
  | _ :: _, [] => false
  | a :: as, b :: bs => a == b && beginsWith as bs

/-- Boolean test that the first list occurs contiguously inside the second. -/
def subListOf (nd : List Char) : List Char → Bool
  | [] => beginsWith nd []
  | b :: bs => beginsWith nd (b :: bs) || subListOf nd bs

/-- Model of the Python expression needle in hay for strings. -/
def strIn (needle hay : String) : Bool := subListOf needle.data hay.data

/-! ### Decimal representation of naturals (the Python str function on int) -/

/-- Decimal digit character. -/
def digitChar : Nat → Char
  | 0 => '0' | 1 => '1' | 2 => '2' | 3 => '3' | 4 => '4'
  | 5 => '5' | 6 => '6' | 7 => '7' | 8 => '8' | _ => '9'

/-- Recursion kernel for the decimal digit list; the fuel only bounds the
recursion depth and any fuel at least the number is enough. -/
def natCharsGo : Nat → Nat → List Char
  | 0, n => [digitChar n]
  | fuel + 1, n =>
    if n < 10 then [digitChar n]
    else natCharsGo fuel (n / 10) ++ [digitChar (n % 10)]

/-- Decimal digit list of a natural number, most significant digit first. -/
def natChars (n : Nat) : List Char := natCharsGo n n

/-- Model of the Python str function applied to a nonnegative int. -/
def natStr (n : Nat) : String := String.mk (natChars n)

/-! ### Path model

Paths handed to the path allocator are modelled by their parent directory,
stem and suffix, mirroring the pathlib attributes the source reads; the
rendered string joins them with a slash, as pathlib does for the paths the
sidecar builds (a directory joined with a file name). -/

/-- A filesystem path split the way pathlib exposes it to unique_path. -/
structure PyPath where
  dir : String
  stem : String
  sfx : String
deriving DecidableEq, Repr

/-- The string form of a path: parent, slash, stem, suffix. -/
def PyPath.toStr (p : PyPath) : String := p.dir ++ "/" ++ p.stem ++ p.sfx

/-- Index of the last dot in a character list, if any. -/
def lastDot : List Char → Option Nat
  | [] => none
  | c :: rest =>
    match lastDot rest with
    | some i => some (i + 1)
    | none => if c == '.' then some 0 else none

/-- Split a file name into stem and suffix, following the CPython pathlib
rule: the suffix starts at the last dot provided that dot is neither the
first nor the last character of the name. -/
def splitExt (nm : String) : String × String :=
  match lastDot nm.data with
  | some i =>
    if 0 < i && i + 1 < nm.data.length then
      (String.mk (nm.data.take i), String.mk (nm.data.drop i))
    else (nm, "")
  | none => (nm, "")

/-- Scan for the characters after the last slash. -/
def lastCompAux : List Char → List Char → List Char
  | acc, [] => acc.reverse
  | acc, c :: rest =>
    if c == '/' then lastCompAux [] rest else lastCompAux (c :: acc) rest

/-- Model of the Python pathlib name attribute: the last slash-separated
component of the path string. -/
def pathName (s : String) : String := String.mk (lastCompAux [] s.data)

/-- Model of the pathlib stem attribute. -/
def pathStem (s : String) : String := (splitExt (pathName s)).1

/-- Build the PyPath for outputDir / fileName, decomposing the file name
into stem and suffix as pathlib would. -/
def mkPyPath (outDir fileName : String) : PyPath :=
  ⟨outDir, (splitExt fileName).1, (splitExt fileName).2⟩

/-! ### unique_path (source lines 22-37)

The source loops forever, trying counters 2, 3, ... until a candidate does
not exist.  The loop is embedded with explicit fuel; one plus the number of
existing files is provably enough fuel (see the termination theorem), so the
fuel-exhausted base case is never reached. -/

/-- Candidate path for a counter: a space and the counter are appended to the
stem, before the suffix (source line 34). -/
def candidate (p : PyPath) (c : Nat) : PyPath :=
  ⟨p.dir, p.stem ++ " " ++ natStr c, p.sfx⟩

/-- The counter loop of unique_path (source lines 33-37). -/
def uniqueLoop (files : List String) (p : PyPath) : Nat → Nat → PyPath
  | 0, c => candidate p c
  | fuel + 1, c =>
    if files.contains (candidate p c).toStr then uniqueLoop files p fuel (c + 1)
    else candidate p c

/-- Model of unique_path (source lines 22-37): return the path unchanged if no
file exists there, otherwise the first candidate, counting from 2, that does
not exist.  The files argument is the set of paths existing at call time. -/
def unique_path (files : List String) (p : PyPath) : PyPath :=
  if files.contains p.toStr then uniqueLoop files p (files.length + 1) 2 else p

/-! ### Events and trace

Every observable action of the sidecar is an event: a JSON status line
(emit, source lines 40-43), a bare error line (emit_error, lines 46-48), a
call delegated to the workspace client, or a directory creation. -/

/-- Optional keyword fields carried by an emit call.  The notebook_id field
is itself an option of an option because cmd_find_notebook emits an explicit
null notebook id when nothing matches (source line 293). -/
structure Extra where
  notebook_id : Option (Option String) := none
  task_id : Option String := none
  output_path : Option String := none
  authenticated : Option Bool := none
  generation_status : Option String := none
  is_complete : Option Bool := none
  is_failed : Option Bool := none
deriving DecidableEq, Repr

/-- A call delegated to the external workspace client, with its arguments as
passed by the sidecar (timeouts in seconds where the source passes one). -/
inductive CallOp where
  | fromStorage
  | create (title : String)
  | add_file (nb path : String)
  | add_url (nb url : String)
  | wait_until_ready (nb sid : String) (timeout : Nat)
  | generate_slide_deck (nb instructions : String)
  | wait_for_completion (nb task : String) (timeout : Nat)
  | download_slide_deck (nb dest : String) (artifactId : Option String)
  | listNb
  | listArts (nb : String)
  | poll_status (nb task : String)
deriving DecidableEq, Repr

/-- One observable event of a sidecar run. -/
inductive Ev where
  | emit (status msg : String) (extra : Extra)
  | emitErr (msg : String)
  | call (op : CallOp)
  | mkdir (dir : String)
deriving DecidableEq, Repr

/-- How a run of an entry point ends: normally (all exceptions, if any,
converted to events) or with an exception escaping the process uncaught. -/
inductive Outcome where
  | normal
  | uncaught (e : PyExc)
deriving DecidableEq, Repr

/-! ### Environment

Responses of the external collaborators (workspace client, filesystem,
browser) are modelled as functions of the call arguments; an error value
models the call raising an exception. -/

/-- Responses of the external workspace client. -/
structure ClientEnv where
  fromStorage : Except PyExc Unit
  create : String → Except PyExc Notebook
  add_file : String → String → Except PyExc SourceObj
  add_url : String → String → Except PyExc SourceObj
  wait_until_ready : String → String → Except PyExc SourceObj
  generate_slide_deck : String → String → Except PyExc GenStatus
  wait_for_completion : String → String → Except PyExc GenStatus
  download_slide_deck : String → String → Option String → Except PyExc String
  listNb : Except PyExc (List Notebook)
  listArts : String → Except PyExc (List Artifact)
  poll_status : String → String → Except PyExc GenStatus

/-- Responses of the browser session used by cmd_login.  The iteration index
selects the observation made by the corresponding pass of the wait loop. -/
structure LoginEnv where
  playwrightOk : Bool
  pathsOk : Except PyExc String
  launch : Except PyExc Unit
  pageUrl : Nat → String
  settle : Nat → Except PyExc Unit
  urlAfter : Nat → String
  saveState : Except PyExc Unit

/-- Responses of the credential store used by cmd_check_auth. -/
structure AuthEnv where
  storagePathRes : Except PyExc String
  storageExists : Bool
  tokens : Except PyExc (String × String)

/-- The whole external world of one sidecar invocation: the set of existing
files, the outcome of directory creation, and the three collaborators. -/
structure Env where
  files : List String
  mkdirRes : String → Except PyExc Unit
  client : ClientEnv
  login : LoginEnv
  auth : AuthEnv

/-- Model of the Python Path exists check against the modelled filesystem. -/
def Env.existsFile (env : Env) (p : String) : Bool := env.files.contains p

/-- The event emitted by a generic except-clause of the sidecar: a
FileNotFoundError is reported as a missing authentication, anything else is
wrapped with the context prefix of the respective command (the traceback
appended by cmd_process is not modelled). -/
def catchEvent (ctx : String) (e : PyExc) : Ev :=
  if e.name == "FileNotFoundError" then
    Ev.emitErr ("Not authenticated. Run \x27login\x27 first. (" ++ e.msg ++ ")")
  else
    Ev.emitErr (ctx ++ e.name ++ ": " ++ e.msg)

/-- Default instructions for slide generation (source line 146). -/
def DEFAULT_SYSTEM_PROMPT : String :=
  "この内容から包括的なスライドデッキを日本語で作成してください。"

/-- Model of the Python expression system_prompt or DEFAULT_SYSTEM_PROMPT:
an absent or empty prompt falls back to the default. -/
def resolveInstructions (sysPrompt : Option String) : String :=
  match sysPrompt with
  | some p => if p == "" then DEFAULT_SYSTEM_PROMPT else p
  | none => DEFAULT_SYSTEM_PROMPT

/-- Notebook title built by cmd_process (source line 184).  The job id is
appended in brackets when it is supplied and nonempty (Python truthiness). -/
def mkTitle (name : String) (jobId : Option String) : String :=
  match jobId with
  | some j =>
    if j == "" then "Auto Slide: " ++ name
    else "Auto Slide: " ++ name ++ " [" ++ j ++ "]"
  | none => "Auto Slide: " ++ name

/-! ### cmd_process (source lines 149-261)

The body inside the try block is split into phases, each returning its events
and either a value or the first exception raised. -/

/-- Additional-file upload loop of cmd_process (source lines 196-204): a
missing file is skipped with a progress note, an existing one is uploaded and
its id and display name recorded. -/
def addFilesLoop (env : Env) (nb : String) :
    List String → List Ev × Except PyExc (List (String × String))
  | [] => ([], Except.ok [])
  | af :: rest =>
    if env.existsFile af = false then
      let r := addFilesLoop env nb rest
      (Ev.emit "progress" ("Skipping missing file: " ++ af) {} :: r.1, r.2)
    else
      let evs0 := [Ev.emit "progress" ("Uploading additional source: " ++ pathName af ++ "...") {},
                   Ev.call (CallOp.add_file nb af)]
      match env.client.add_file nb af with
      | Except.error e => (evs0, Except.error e)
      | Except.ok s =>
        let r := addFilesLoop env nb rest
        (evs0 ++ [Ev.emit "progress" ("Additional source uploaded: " ++ s.id) {}] ++ r.1,
         r.2.map (fun l => (s.id, pathName af) :: l))

/-- URL-source loop of cmd_process (source lines 207-211). -/
def urlsLoop (env : Env) (nb : String) :
    List String → List Ev × Except PyExc (List (String × String))
  | [] => ([], Except.ok [])
  | url :: rest =>
    let evs0 := [Ev.emit "progress" ("Adding URL source: " ++ url ++ "...") {},
                 Ev.call (CallOp.add_url nb url)]
    match env.client.add_url nb url with
    | Except.error e => (evs0, Except.error e)
    | Except.ok s =>
      let r := urlsLoop env nb rest
      (evs0 ++ [Ev.emit "progress" ("URL source added: " ++ s.id) {}] ++ r.1,
       r.2.map (fun l => (s.id, url) :: l))

/-- Source-readiness loop of cmd_process (source lines 214-219): every
recorded source is awaited in order with a 300 second budget. -/
def readyLoop (env : Env) (nb : String) :
    List (String × String) → List Ev × Except PyExc Unit
  | [] => ([], Except.ok ())
  | (sid, sname) :: rest =>
    let evs0 := [Ev.emit "progress" ("Waiting for source to be processed: " ++ sname ++ "...") {},
                 Ev.call (CallOp.wait_until_ready nb sid 300)]
    match env.client.wait_until_ready nb sid with
    | Except.error e => (evs0, Except.error e)
    | Except.ok s =>
      let r := readyLoop env nb rest
      (evs0 ++ [Ev.emit "progress" ("Source ready: " ++ s.title) {}] ++ r.1, r.2)

/-- The error line emitted when the generation call returns no task id
(source line 229). -/
def genRejectedMsg : String :=
  "Slide generation failed to start (no task_id returned). The API may have rejected the request."

/-- Generation, completion wait and download tail of cmd_process (source
lines 222-255).  An empty task id aborts with an error line and an early
normal return (lines 228-230); a failure-flagged terminal status only gets a
progress note and the download is still attempted (lines 241-253). -/
def generatePhase (env : Env) (nb instructions outDir fileStem : String) :
    List Ev × Except PyExc Unit :=
  let evs0 := [Ev.emit "progress" "Generating slide deck..." {},
               Ev.call (CallOp.generate_slide_deck nb instructions)]
  match env.client.generate_slide_deck nb instructions with
  | Except.error e => (evs0, Except.error e)
  | Except.ok st =>
    if st.task_id == "" then
      (evs0 ++ [Ev.emitErr genRejectedMsg], Except.ok ())
    else
      let evs1 := evs0 ++
        [Ev.emit "progress" ("Generation started, task_id: " ++ st.task_id)
           {task_id := some st.task_id, notebook_id := some (some nb)},
         Ev.emit "progress" "Waiting for slide generation to complete..." {},
         Ev.call (CallOp.wait_for_completion nb st.task_id 1800)]
      match env.client.wait_for_completion nb st.task_id with
      | Except.error e => (evs1, Except.error e)
      | Except.ok finalSt =>
        let note :=
          if finalSt.is_failed then
            Ev.emit "progress" ("Generation status reports failed (status=" ++ finalSt.status ++ "), attempting download anyway...") {}
          else Ev.emit "progress" "Slide generation complete!" {}
        let dest := (unique_path env.files (mkPyPath outDir (fileStem ++ "_slides.pdf"))).toStr
        let evs2 := evs1 ++ [note,
          Ev.emit "progress" ("Downloading PDF to: " ++ dest) {},
          Ev.call (CallOp.download_slide_deck nb dest none)]
        match env.client.download_slide_deck nb dest none with
        | Except.error e => (evs2, Except.error e)
        | Except.ok dp =>
          (evs2 ++ [Ev.emit "done" ("PDF downloaded: " ++ dp)
             {output_path := some dp, notebook_id := some (some nb)}],
           Except.ok ())

/-- Body of the try block of cmd_process (source lines 180-255). -/
def processBody (env : Env) (file outDir : String) (sysPrompt jobId : Option String)
    (addFiles srcUrls : List String) : List Ev × Except PyExc Unit :=
  match env.client.fromStorage with
  | Except.error e => ([Ev.call CallOp.fromStorage], Except.error e)
  | Except.ok _ =>
    let title := mkTitle (pathName file) jobId
    let evs0 := [Ev.call CallOp.fromStorage,
                 Ev.emit "progress" "Creating notebook..." {},
                 Ev.call (CallOp.create title)]
    match env.client.create title with
    | Except.error e => (evs0, Except.error e)
    | Except.ok nbObj =>
      let nb := nbObj.id
      let evs1 := evs0 ++
        [Ev.emit "progress" ("Notebook created: " ++ nb) {notebook_id := some (some nb)},
         Ev.emit "progress" ("Uploading source: " ++ pathName file ++ "...") {},
         Ev.call (CallOp.add_file nb file)]
      match env.client.add_file nb file with
      | Except.error e => (evs1, Except.error e)
      | Except.ok s0 =>
        let evs2 := evs1 ++ [Ev.emit "progress" ("Source uploaded: " ++ s0.id) {}]
        let ra := addFilesLoop env nb addFiles
        match ra.2 with
        | Except.error e => (evs2 ++ ra.1, Except.error e)
        | Except.ok moreFiles =>
          let ru := urlsLoop env nb srcUrls
          match ru.2 with
          | Except.error e => (evs2 ++ ra.1 ++ ru.1, Except.error e)
          | Except.ok moreUrls =>
            let sourceIds := (s0.id, pathName file) :: (moreFiles ++ moreUrls)
            let rr := readyLoop env nb sourceIds
            match rr.2 with
            | Except.error e => (evs2 ++ ra.1 ++ ru.1 ++ rr.1, Except.error e)
            | Except.ok _ =>
              let rg := generatePhase env nb (resolveInstructions sysPrompt) outDir (pathStem file)
              (evs2 ++ ra.1 ++ ru.1 ++ rr.1 ++ rg.1, rg.2)

/-- Model of cmd_process (source lines 149-261).  The existence check on the
primary file happens before any other action (lines 172-174); the output
directory is created outside the try block (line 176), so a failure there
escapes uncaught; every exception inside the try block becomes one terminal
error line (lines 257-261). -/
def cmd_process (env : Env) (file outDir : String) (sysPrompt jobId : Option String)
    (addFiles srcUrls : Option (List String)) : List Ev × Outcome :=
  if env.existsFile file = false then
    ([Ev.emitErr ("File not found: " ++ file)], Outcome.normal)
  else
    match env.mkdirRes outDir with
    | Except.error e => ([Ev.mkdir outDir], Outcome.uncaught e)
    | Except.ok _ =>
      let pre := [Ev.mkdir outDir, Ev.emit "progress" "Connecting to NotebookLM..." {}]
      let r := processBody env file outDir sysPrompt jobId (addFiles.getD []) (srcUrls.getD [])
      match r.2 with
      | Except.ok _ => (pre ++ r.1, Outcome.normal)
      | Except.error e => (pre ++ r.1 ++ [catchEvent "Process failed: " e], Outcome.normal)

/-! ### cmd_find_notebook (source lines 264-297) -/

/-- Model of the Python str lower method. -/
def pyLower (s : String) : String := String.mk (s.data.map Char.toLower)

/-- Test whether an artifact looks like a slide deck (source line 279). -/
def artifactIsSlide (a : Artifact) : Bool :=
  a.has_kind && strIn "slide" (pyLower a.kind)

/-- Notebook scan of cmd_find_notebook (source lines 273-293): first notebook
whose title contains the job id wins; its artifacts are then listed and
searched for a slide artifact. -/
def findLoop (env : Env) (jobId : String) :
    List Notebook → List Ev × Except PyExc Unit
  | [] => ([Ev.emit "done" "No matching notebook found" {notebook_id := some none}], Except.ok ())
  | nb :: rest =>
    if strIn jobId nb.title then
      let evs0 := [Ev.emit "progress" ("Found notebook: " ++ nb.id) {},
                   Ev.call (CallOp.listArts nb.id)]
      match env.client.listArts nb.id with
      | Except.error e => (evs0, Except.error e)
      | Except.ok arts =>
        match arts.find? artifactIsSlide with
        | some a =>
          (evs0 ++ [Ev.emit "done" "Found notebook with slide artifact"
             {notebook_id := some (some nb.id), task_id := some a.id,
              generation_status := some (if a.is_completed then "completed"
                else if a.is_processing then "processing" else "failed"),
              is_complete := some a.is_completed, is_failed := some a.is_failed}],
           Except.ok ())
        | none =>
          (evs0 ++ [Ev.emit "done" "Found notebook but no slide artifact"
             {notebook_id := some (some nb.id), generation_status := some "no_artifact"}],
           Except.ok ())
    else findLoop env jobId rest

/-- Model of cmd_find_notebook (source lines 264-297). -/
def cmd_find_notebook (env : Env) (jobId : String) : List Ev × Outcome :=
  let e0 := Ev.emit "progress" ("Searching for notebook with job ID: " ++ jobId) {}
  match env.client.fromStorage with
  | Except.error e =>
    ([e0, Ev.call CallOp.fromStorage, catchEvent "Find notebook failed: " e], Outcome.normal)
  | Except.ok _ =>
    let evs0 := [e0, Ev.call CallOp.fromStorage, Ev.call CallOp.listNb]
    match env.client.listNb with
    | Except.error e => (evs0 ++ [catchEvent "Find notebook failed: " e], Outcome.normal)
    | Except.ok nbs =>
      let r := findLoop env jobId nbs
      match r.2 with
      | Except.ok _ => (evs0 ++ r.1, Outcome.normal)
      | Except.error e => (evs0 ++ r.1 ++ [catchEvent "Find notebook failed: " e], Outcome.normal)

/-! ### cmd_check_status (source lines 300-317) -/

/-- Model of cmd_check_status: one poll_status call, whose fields are copied
into the terminal done event. -/
def cmd_check_status (env : Env) (nb task : String) : List Ev × Outcome :=
  let e0 := Ev.emit "progress" "Checking generation status..." {}
  match env.client.fromStorage with
  | Except.error e =>
    ([e0, Ev.call CallOp.fromStorage, catchEvent "Check status failed: " e], Outcome.normal)
  | Except.ok _ =>
    let evs0 := [e0, Ev.call CallOp.fromStorage, Ev.call (CallOp.poll_status nb task)]
    match env.client.poll_status nb task with
    | Except.error e => (evs0 ++ [catchEvent "Check status failed: " e], Outcome.normal)
    | Except.ok st =>
      (evs0 ++ [Ev.emit "done" ("Status: " ++ st.status)
         {generation_status := some st.status, is_complete := some st.is_complete,
          is_failed := some st.is_failed, task_id := some task}], Outcome.normal)

/-! ### cmd_download (source lines 320-343) -/

/-- Model of cmd_download.  The mkdir on the output directory is outside the
try block (source line 325), so a failure there escapes uncaught. -/
def cmd_download (env : Env) (nb outDir : String) (nm artifactId : Option String) :
    List Ev × Outcome :=
  match env.mkdirRes outDir with
  | Except.error e => ([Ev.mkdir outDir], Outcome.uncaught e)
  | Except.ok _ =>
    let pre := [Ev.mkdir outDir, Ev.emit "progress" "Downloading slide deck..." {}]
    match env.client.fromStorage with
    | Except.error e =>
      (pre ++ [Ev.call CallOp.fromStorage, catchEvent "Download failed: " e], Outcome.normal)
    | Except.ok _ =>
      let fileName := match nm with
        | some n => if n == "" then "slides.pdf" else n ++ "_slides.pdf"
        | none => "slides.pdf"
      let dest := (unique_path env.files (mkPyPath outDir fileName)).toStr
      let evs0 := pre ++ [Ev.call CallOp.fromStorage,
                          Ev.call (CallOp.download_slide_deck nb dest artifactId)]
      match env.client.download_slide_deck nb dest artifactId with
      | Except.error e => (evs0 ++ [catchEvent "Download failed: " e], Outcome.normal)
      | Except.ok dp =>
        (evs0 ++ [Ev.emit "done" ("PDF downloaded: " ++ dp) {output_path := some dp}],
         Outcome.normal)

/-! ### cmd_check_auth (source lines 123-143) -/

/-- Model of cmd_check_auth.  The storage path lookup (source lines 127-128)
is outside the try block, so a failure there escapes uncaught. -/
def cmd_check_auth (env : Env) : List Ev × Outcome :=
  let e0 := Ev.emit "progress" "Checking authentication..." {}
  match env.auth.storagePathRes with
  | Except.error e => ([e0], Outcome.uncaught e)
  | Except.ok sp =>
    let e1 := Ev.emit "progress" ("Storage path: " ++ sp) {}
    if env.auth.storageExists = false then
      ([e0, e1, Ev.emit "error" ("Storage file not found: " ++ sp) {authenticated := some false}],
       Outcome.normal)
    else
      let e2 := Ev.emit "progress" "Storage file exists, validating tokens..." {}
      match env.auth.tokens with
      | Except.ok tk =>
        ([e0, e1, e2,
          Ev.emit "progress" ("Tokens loaded: csrf=" ++ String.mk (tk.1.data.take 10) ++ "..., session=" ++ String.mk (tk.2.data.take 10) ++ "...") {},
          Ev.emit "done" "Authenticated" {authenticated := some true}], Outcome.normal)
      | Except.error e =>
        ([e0, e1, e2,
          Ev.emit "error" ("Authentication check failed: " ++ e.name ++ ": " ++ e.msg)
            {authenticated := some false}], Outcome.normal)

/-! ### cmd_login (source lines 51-120) -/

/-- The login wait loop (source lines 91-109): poll every 2 seconds for up to
300 seconds; a settled page away from the accounts domain breaks the loop.
The fuel is the number of remaining passes (150 covers the whole budget);
the returned number is the final waited counter. -/
def loginLoop (env : LoginEnv) : Nat → Nat → Nat → List Ev × Nat
  | 0, waited, _ => ([], waited)
  | fuel + 1, waited, k =>
    if waited < 300 then
      let url := env.pageUrl k
      let detected :=
        if strIn "notebooklm.google.com" url && !(strIn "accounts.google" url) then
          match env.settle k with
          | Except.ok _ => !(strIn "accounts.google" (env.urlAfter k))
          | Except.error _ => false
        else false
      if detected then
        ([Ev.emit "progress" "Login detected, saving authentication..." {}], waited)
      else
        let w := waited + 2
        let evs := if w % 10 == 0 then
            [Ev.emit "progress" ("Waiting for login... (" ++ natStr w ++ "s)") {}]
          else []
        let r := loginLoop env fuel w (k + 1)
        (evs ++ r.1, r.2)
    else ([], waited)

/-- Model of cmd_login.  Only the playwright import is guarded (source lines
53-57); the path setup and every browser operation can escape uncaught. -/
def cmd_login (env : Env) : List Ev × Outcome :=
  if env.login.playwrightOk = false then
    ([Ev.emitErr "Playwright not installed. Run: pip install playwright && playwright install chromium"],
     Outcome.normal)
  else
    match env.login.pathsOk with
    | Except.error e => ([], Outcome.uncaught e)
    | Except.ok storagePath =>
      let pre := [Ev.emit "progress" "Opening browser for Google login..." {}]
      match env.login.launch with
      | Except.error e => (pre, Outcome.uncaught e)
      | Except.ok _ =>
        let pre2 := pre ++ [Ev.emit "waiting" "Please complete Google login in the browser..." {}]
        let r := loginLoop env.login 150 0 0
        if r.2 ≥ 300 then
          (pre2 ++ r.1 ++ [Ev.emitErr "Login timeout. Please try again."], Outcome.normal)
        else
          match env.login.saveState with
          | Except.error e => (pre2 ++ r.1, Outcome.uncaught e)
          | Except.ok _ =>
            (pre2 ++ r.1 ++ [Ev.emit "done" ("Authentication saved to: " ++ storagePath) {}],
             Outcome.normal)

/-! ### Command dispatcher (main, source lines 346-429) -/

/-- Model of the Python list index method: position of the first occurrence. -/
def flagIdx (flag : String) : List String → Option Nat
  | [] => none
  | a :: rest => if a == flag then some 0 else (flagIdx flag rest).map (· + 1)

/-- Model of the single-value flag parsing pattern of main (source lines
369-372 and alike): the first occurrence of the flag selects the following
argument if there is one, and the flag is silently ignored otherwise. -/
def flagValue (flag : String) (argv : List String) : Option String :=
  match flagIdx flag argv with
  | some i => argv[i + 1]?
  | none => none

/-- Model of the repeatable flag parsing pattern of main (source lines
382-391): every occurrence followed by some argument contributes it. -/
def flagValues (flag : String) : List String → List String
  | a :: b :: rest =>
    if a == flag then b :: flagValues flag (b :: rest)
    else flagValues flag (b :: rest)
  | _ => []

/-- Model of main (source lines 346-429).  The argument list includes the
program name in head position, as sys.argv does. -/
def mainRun (env : Env) (argv : List String) : List Ev × Outcome :=
  match argv with
  | [] =>
    ([Ev.emitErr "No command provided. Use: login, check-auth, process, check-status, or download"],
     Outcome.normal)
  | [_] =>
    ([Ev.emitErr "No command provided. Use: login, check-auth, process, check-status, or download"],
     Outcome.normal)
  | _ :: cmd :: args =>
    if cmd == "login" then cmd_login env
    else if cmd == "check-auth" then cmd_check_auth env
    else if cmd == "process" then
      match args with
      | f :: o :: _ =>
        let afs := flagValues "--source-file" argv
        let urls := flagValues "--source-url" argv
        cmd_process env f o (flagValue "--system-prompt" argv) (flagValue "--job-id" argv)
          (if afs.isEmpty then none else some afs)
          (if urls.isEmpty then none else some urls)
      | _ =>
        ([Ev.emitErr "Usage: process <file_path> <output_dir> [--system-prompt <prompt>] [--source-file <path>]... [--source-url <url>]..."],
         Outcome.normal)
    else if cmd == "find-notebook" then
      match args with
      | j :: _ => cmd_find_notebook env j
      | [] => ([Ev.emitErr "Usage: find-notebook <job_id>"], Outcome.normal)
    else if cmd == "check-status" then
      match args with
      | a :: b :: _ => cmd_check_status env a b
      | _ => ([Ev.emitErr "Usage: check-status <notebook_id> <task_id>"], Outcome.normal)
    else if cmd == "download" then
      match args with
      | a :: b :: _ => cmd_download env a b (flagValue "--name" argv) (flagValue "--artifact-id" argv)
      | _ =>
        ([Ev.emitErr "Usage: download <notebook_id> <output_dir> [--name <stem>] [--artifact-id <id>]"],
         Outcome.normal)
    else ([Ev.emitErr ("Unknown command: " ++ cmd)], Outcome.normal)

/-! ### Trace observations -/

/-- Is this event a call to the workspace client? -/
def Ev.isClientCall : Ev → Bool
  | Ev.call _ => true
  | _ => false

/-- Is this event a generation request? -/
def Ev.isGenerateCall : Ev → Bool
  | Ev.call (CallOp.generate_slide_deck _ _) => true
  | _ => false

/-- Is this event a completion-poll call? -/
def Ev.isWaitCompletionCall : Ev → Bool
  | Ev.call (CallOp.wait_for_completion _ _ _) => true
  | _ => false

/-- Is this event a download call? -/
def Ev.isDownloadCall : Ev → Bool
  | Ev.call (CallOp.download_slide_deck _ _ _) => true
  | _ => false

/-- Is this event a notebook-creation call? -/
def Ev.isCreateCall : Ev → Bool
  | Ev.call (CallOp.create _) => true
  | _ => false

/-- Is this event a single status poll call? -/
def Ev.isPollCall : Ev → Bool
  | Ev.call (CallOp.poll_status _ _) => true
  | _ => false

/-- Is this event an error event, in either of the two shapes the sidecar
produces (the bare error line of emit_error, or an emit with status error)? -/
def Ev.isErrorEv : Ev → Bool
  | Ev.emitErr _ => true
  | Ev.emit s _ _ => s == "error"
  | _ => false

/-- Is this event a terminal done or error event? -/
def Ev.isTerminalEv : Ev → Bool
  | Ev.emitErr _ => true
  | Ev.emit s _ _ => s == "done" || s == "error"
  | _ => false

/-- The source id and timeout of a readiness-wait call, if this event is one. -/
def Ev.waitReadyArg : Ev → Option (String × String × Nat)
  | Ev.call (CallOp.wait_until_ready nb sid t) => some (nb, sid, t)
  | _ => none

/-! ## Proof development

### Decimal strings are injective -/

theorem digitChar_inj {n m : Nat} (hn : n < 10) (hm : m < 10)
    (h : digitChar n = digitChar m) : n = m := by
  interval_cases n <;> interval_cases m <;> revert h <;> decide

theorem natCharsGo_stable : ∀ fuel fuel' n, n ≤ fuel → n ≤ fuel' →
    natCharsGo fuel n = natCharsGo fuel' n := by
  intro fuel
  induction fuel with
  | zero =>
    intro fuel' n h _
    have hn : n = 0 := by omega
    subst hn
    cases fuel' <;> simp [natCharsGo]
  | succ fuel ih =>
    intro fuel' n h h'
    cases fuel' with
    | zero =>
      have hn : n = 0 := by omega
      subst hn
      simp [natCharsGo]
    | succ fuel' =>
      simp only [natCharsGo]
      by_cases h10 : n < 10
      · simp [h10]
      · simp only [h10, if_false]
        have hd : n / 10 < n := Nat.div_lt_self (by omega) (by decide)
        rw [ih fuel' (n / 10) (by omega) (by omega)]

theorem natChars_eq (n : Nat) :
    natChars n = if n < 10 then [digitChar n]
      else natChars (n / 10) ++ [digitChar (n % 10)] := by
  by_cases h10 : n < 10
  · unfold natChars
    cases n with
    | zero => simp [natCharsGo]
    | succ m => simp [natCharsGo, h10]
  · have hpos : n ≠ 0 := by omega
    obtain ⟨m, rfl⟩ := Nat.exists_eq_succ_of_ne_zero hpos
    unfold natChars
    simp only [natCharsGo, h10, if_false]
    have hd : (m + 1) / 10 < m + 1 := Nat.div_lt_self (by omega) (by decide)
    rw [natCharsGo_stable m ((m + 1) / 10) ((m + 1) / 10) (by omega) (by omega)]

theorem natChars_ne_nil (n : Nat) : natChars n ≠ [] := by
  rw [natChars_eq]
  split <;> simp

theorem natChars_inj {n m : Nat} (h : natChars n = natChars m) : n = m := by
  induction n using Nat.strong_induction_on generalizing m with
  | _ n ih =>
    rw [natChars_eq n, natChars_eq m] at h
    split_ifs at h with h1 h2 h2
    · have := List.cons.inj h
      exact digitChar_inj h1 h2 this.1
    · exfalso
      have hlen := congrArg List.length h
      simp at hlen
      exact natChars_ne_nil (m / 10) hlen
    · exfalso
      have hlen := congrArg List.length h
      simp at hlen
      exact natChars_ne_nil (n / 10) hlen
    · obtain ⟨h3, h4⟩ := List.append_inj' h rfl
      have hm10 : n % 10 = m % 10 :=
        digitChar_inj (Nat.mod_lt _ (by decide)) (Nat.mod_lt _ (by decide))
          (List.cons.inj h4).1
      have hdiv : n / 10 = m / 10 :=
        ih (n / 10) (Nat.div_lt_self (by omega) (by decide)) h3
      omega

theorem natStr_inj {n m : Nat} (h : natStr n = natStr m) : n = m := by
  apply natChars_inj
  have := congrArg String.data h
  simpa [natStr] using this

/-! ### Candidate paths with distinct counters are distinct -/

theorem data_natStr (n : Nat) : (natStr n).data = natChars n := rfl

theorem candidate_toStr_inj (p : PyPath) {c d : Nat}
    (h : (candidate p c).toStr = (candidate p d).toStr) : c = d := by
  apply natStr_inj
  simp only [candidate, PyPath.toStr] at h
  have h2 := congrArg String.data h
  simp only [String.data_append, List.append_assoc] at h2
  have h3 := List.append_cancel_left h2
  have h4 := List.append_cancel_left h3
  have h5 := List.append_cancel_left h4
  have h6 := List.append_cancel_left h5
  have h7 := List.append_cancel_right h6
  exact String.ext h7

/-! ### Pigeonhole: a free candidate exists within length-plus-one tries -/

theorem le_length_of_inj_mem (files : List String) (f : Nat → String)
    (hinj : Function.Injective f) (m : Nat)
    (hmem : ∀ i, i < m → files.contains (f i) = true) : m ≤ files.length := by
  have hn : ((List.range m).map f).Nodup := (List.nodup_range m).map hinj
  have hsub : ((List.range m).map f).toFinset ⊆ files.toFinset := by
    intro x hx
    simp only [List.mem_toFinset, List.mem_map, List.mem_range] at hx ⊢
    obtain ⟨i, hi, rfl⟩ := hx
    exact List.elem_iff.mp (hmem i hi)
  have h1 : ((List.range m).map f).toFinset.card = m := by
    rw [List.toFinset_card_of_nodup hn]
    simp
  calc m = ((List.range m).map f).toFinset.card := h1.symm
    _ ≤ files.toFinset.card := Finset.card_le_card hsub
    _ ≤ files.length := files.toFinset_card_le

theorem exists_free_candidate (files : List String) (p : PyPath) :
    ∃ k, k ≤ files.length ∧ files.contains (candidate p (2 + k)).toStr = false := by
  by_contra hc
  push_neg at hc
  have hmem : ∀ i, i < files.length + 1 →
      files.contains ((fun c => (candidate p (2 + c)).toStr) i) = true := by
    intro i hi
    have := hc i (by omega)
    simpa using this
  have hinj : Function.Injective (fun c : Nat => (candidate p (2 + c)).toStr) := by
    intro a b hab
    have := candidate_toStr_inj p hab
    omega
  have := le_length_of_inj_mem files _ hinj (files.length + 1) hmem
  omega

/-! ### The counter loop returns the first free candidate -/

theorem uniqueLoop_eq (files : List String) (p : PyPath) :
    ∀ fuel start k, k < fuel →
      files.contains (candidate p (start + k)).toStr = false →
      (∀ j, j < k → files.contains (candidate p (start + j)).toStr = true) →
      uniqueLoop files p fuel start = candidate p (start + k) := by
  intro fuel
  induction fuel with
  | zero => intro start k hk; omega
  | succ fuel ih =>
    intro start k hk hfree hprev
    cases k with
    | zero =>
      simp only [Nat.add_zero] at hfree
      simp only [uniqueLoop]
      rw [hfree]
      simp
    | succ k' =>
      have h0 : files.contains (candidate p (start + 0)).toStr = true := hprev 0 (by omega)
      simp only [Nat.add_zero] at h0
      have hrec := ih (start + 1) k' (by omega)
        (by rw [show start + 1 + k' = start + (k' + 1) by omega]; exact hfree)
        (fun j hj => by
          rw [show start + 1 + j = start + (j + 1) by omega]
          exact hprev (j + 1) (by omega))
      simp only [uniqueLoop]
      rw [h0]
      simp only [if_true]
      rw [hrec, show start + 1 + k' = start + (k' + 1) by omega]

/-- Shared characterization of unique_path on an existing path: it returns
the candidate with the least counter (at least 2) whose path is free, and
that counter is found within length-plus-one loop passes. -/
theorem uniquePathLeast (files : List String) (p : PyPath)
    (hex : files.contains p.toStr = true) :
    ∃ k, k ≤ files.length ∧
      unique_path files p = candidate p (2 + k) ∧
      files.contains (candidate p (2 + k)).toStr = false ∧
      (∀ j, j < k → files.contains (candidate p (2 + j)).toStr = true) := by
  obtain ⟨k0, hk0, hfree0⟩ := exists_free_candidate files p
  have hex2 : ∃ k, files.contains (candidate p (2 + k)).toStr = false := ⟨k0, hfree0⟩
  have hKfree := Nat.find_spec hex2
  have hKle : Nat.find hex2 ≤ k0 := Nat.find_min' hex2 hfree0
  have hKprev : ∀ j, j < Nat.find hex2 →
      files.contains (candidate p (2 + j)).toStr = true := by
    intro j hj
    have := Nat.find_min hex2 hj
    simpa using this
  refine ⟨Nat.find hex2, by omega, ?_, hKfree, hKprev⟩
  unfold unique_path
  rw [hex]
  simp only [if_true]
  exact uniqueLoop_eq files p (files.length + 1) 2 (Nat.find hex2) (by omega) hKfree hKprev

/-- C9: the counter loop of unique_path reaches a non-existing candidate
within (number of existing files) + 1 passes and unique_path returns the
candidate with the least counter, counted from 2, whose path does not exist;
in particular the embedded fuel never runs out and the loop terminates for
every input. -/
theorem c9_unique_path_termination (files : List String) (p : PyPath)
    (hex : files.contains p.toStr = true) :
    ∃ k, k ≤ files.length ∧
      unique_path files p = candidate p (2 + k) ∧
      files.contains (candidate p (2 + k)).toStr = false ∧
      (∀ j, j < k → files.contains (candidate p (2 + j)).toStr = true) :=
  uniquePathLeast files p hex

/-- C9 witness: concrete run with one colliding file. -/
theorem c9_unique_path_termination_witness :
    (["d/a.pdf"] : List String).contains (PyPath.mk "d" "a" ".pdf").toStr = true ∧
    (∃ k, k ≤ (["d/a.pdf"] : List String).length ∧
      unique_path ["d/a.pdf"] (PyPath.mk "d" "a" ".pdf") = candidate (PyPath.mk "d" "a" ".pdf") (2 + k) ∧
      (["d/a.pdf"] : List String).contains (candidate (PyPath.mk "d" "a" ".pdf") (2 + k)).toStr = false ∧
      (∀ j, j < k → (["d/a.pdf"] : List String).contains (candidate (PyPath.mk "d" "a" ".pdf") (2 + j)).toStr = true)) :=
  ⟨by decide, c9_unique_path_termination ["d/a.pdf"] (PyPath.mk "d" "a" ".pdf") (by decide)⟩

/-- C5: the path allocator returns the desired path unchanged when no file
exists there; with the base path and the candidates up to counter N all
existing (N colliding files) and the candidate with counter N + 1 free, it
returns the candidate with counter N + 1; and the returned path never equals
an existing file at call time. -/
theorem c5_unique_path_contract :
    (∀ (files : List String) (p : PyPath),
        files.contains p.toStr = false → unique_path files p = p) ∧
    (∀ (files : List String) (p : PyPath) (N : Nat), 1 ≤ N →
        files.contains p.toStr = true →
        (∀ c ∈ Finset.Icc 2 N, files.contains (candidate p c).toStr = true) →
        files.contains (candidate p (N + 1)).toStr = false →
        unique_path files p = candidate p (N + 1)) ∧
    (∀ (files : List String) (p : PyPath),
        files.contains (unique_path files p).toStr = false) := by
  refine ⟨?_, ?_, ?_⟩
  · intro files p h
    unfold unique_path
    rw [h]
    simp
  · intro files p N hN hex hcoll hfree
    obtain ⟨k, _, heq, hkfree, hkprev⟩ := uniquePathLeast files p hex
    have hkN : 2 + k = N + 1 := by
      by_contra hne
      rcases Nat.lt_or_ge (2 + k) (N + 1) with hlt | hge
      · have hmem : files.contains (candidate p (2 + k)).toStr = true := by
          apply hcoll
          simp only [Finset.mem_Icc]
          omega
        rw [hmem] at hkfree
        simp at hkfree
      · have hlt2 : N - 1 < k := by omega
        have hth := hkprev (N - 1) hlt2
        rw [show 2 + (N - 1) = N + 1 by omega] at hth
        rw [hth] at hfree
        simp at hfree
    rw [heq, hkN]
  · intro files p
    by_cases h : files.contains p.toStr = true
    · obtain ⟨k, _, heq, hkfree, _⟩ := uniquePathLeast files p h
      rw [heq]
      exact hkfree
    · have hb : files.contains p.toStr = false := by
        cases hcl : files.contains p.toStr
        · rfl
        · exact absurd hcl h
      unfold unique_path
      rw [hb]
      simpa using hb

/-- C5 witness: concrete runs covering the three conjuncts, with two
colliding files forcing counter 3. -/
theorem c5_unique_path_contract_witness :
    unique_path ([] : List String) (PyPath.mk "out" "doc_slides" ".pdf") = PyPath.mk "out" "doc_slides" ".pdf" ∧
    unique_path ["d/a.pdf", "d/a 2.pdf"] (PyPath.mk "d" "a" ".pdf") = candidate (PyPath.mk "d" "a" ".pdf") 3 ∧
    (["d/a.pdf", "d/a 2.pdf"] : List String).contains
      (unique_path ["d/a.pdf", "d/a 2.pdf"] (PyPath.mk "d" "a" ".pdf")).toStr = false := by
  refine ⟨c5_unique_path_contract.1 [] _ (by decide), ?_,
    c5_unique_path_contract.2.2 ["d/a.pdf", "d/a 2.pdf"] (PyPath.mk "d" "a" ".pdf")⟩
  have hth := c5_unique_path_contract.2.1 ["d/a.pdf", "d/a 2.pdf"] (PyPath.mk "d" "a" ".pdf") 2
    (by decide) (by decide) (by decide) (by decide)
  exact hth

/-! ### Shapes of the events each phase of cmd_process can produce -/

theorem addFilesLoop_events (env : Env) (nb : String) :
    ∀ l ev, ev ∈ (addFilesLoop env nb l).1 →
      (∃ m x, ev = Ev.emit "progress" m x) ∨ (∃ q, ev = Ev.call (CallOp.add_file nb q)) := by
  intro l
  induction l with
  | nil => intro ev h; simp [addFilesLoop] at h
  | cons af rest ih =>
    intro ev h
    unfold addFilesLoop at h
    by_cases hex : env.existsFile af = false
    · rw [if_pos hex] at h
      rcases List.mem_cons.mp h with hev | h2
      · exact Or.inl ⟨_, _, hev⟩
      · exact ih ev h2
    · rw [if_neg hex] at h
      cases hadd : env.client.add_file nb af with
      | error e =>
        rw [hadd] at h
        simp only [List.mem_cons, List.not_mem_nil, or_false] at h
        rcases h with hev | hev
        · exact Or.inl ⟨_, _, hev⟩
        · exact Or.inr ⟨_, hev⟩
      | ok s =>
        rw [hadd] at h
        simp only [List.append_assoc, List.cons_append, List.nil_append, List.mem_cons] at h
        rcases h with hev | hev | hev | h2
        · exact Or.inl ⟨_, _, hev⟩
        · exact Or.inr ⟨_, hev⟩
        · exact Or.inl ⟨_, _, hev⟩
        · exact ih ev (by simpa using h2)

theorem urlsLoop_events (env : Env) (nb : String) :
    ∀ l ev, ev ∈ (urlsLoop env nb l).1 →
      (∃ m x, ev = Ev.emit "progress" m x) ∨ (∃ u, ev = Ev.call (CallOp.add_url nb u)) := by
  intro l
  induction l with
  | nil => intro ev h; simp [urlsLoop] at h
  | cons url rest ih =>
    intro ev h
    unfold urlsLoop at h
    cases hadd : env.client.add_url nb url with
    | error e =>
      rw [hadd] at h
      simp only [List.mem_cons, List.not_mem_nil, or_false] at h
      rcases h with hev | hev
      · exact Or.inl ⟨_, _, hev⟩
      · exact Or.inr ⟨_, hev⟩
    | ok s =>
      rw [hadd] at h
      simp only [List.append_assoc, List.cons_append, List.nil_append, List.mem_cons] at h
      rcases h with hev | hev | hev | h2
      · exact Or.inl ⟨_, _, hev⟩
      · exact Or.inr ⟨_, hev⟩
      · exact Or.inl ⟨_, _, hev⟩
      · exact ih ev (by simpa using h2)

theorem readyLoop_events (env : Env) (nb : String) :
    ∀ l ev, ev ∈ (readyLoop env nb l).1 →
      (∃ m x, ev = Ev.emit "progress" m x) ∨
      (∃ sid, ev = Ev.call (CallOp.wait_until_ready nb sid 300) ∧ sid ∈ l.map Prod.fst) := by
  intro l
  induction l with
  | nil => intro ev h; simp [readyLoop] at h
  | cons hd rest ih =>
    intro ev h
    obtain ⟨sid, sname⟩ := hd
    unfold readyLoop at h
    cases hw : env.client.wait_until_ready nb sid with
    | error e =>
      rw [hw] at h
      simp only [List.mem_cons, List.not_mem_nil, or_false] at h
      rcases h with hev | hev
      · exact Or.inl ⟨_, _, hev⟩
      · exact Or.inr ⟨sid, hev, by simp⟩
    | ok s =>
      rw [hw] at h
      simp only [List.append_assoc, List.cons_append, List.nil_append, List.mem_cons] at h
      rcases h with hev | hev | hev | h2
      · exact Or.inl ⟨_, _, hev⟩
      · exact Or.inr ⟨sid, hev, by simp⟩
      · exact Or.inl ⟨_, _, hev⟩
      · rcases ih ev (by simpa using h2) with he | ⟨sid2, hev, hm⟩
        · exact Or.inl he
        · exact Or.inr ⟨sid2, hev, by simp [hm]⟩

theorem generatePhase_events (env : Env) (nb ins outDir stem : String) :
    ∀ ev ∈ (generatePhase env nb ins outDir stem).1,
      (∃ s m x, ev = Ev.emit s m x) ∨ ev = Ev.emitErr genRejectedMsg ∨
      ev = Ev.call (CallOp.generate_slide_deck nb ins) ∨
      (∃ tid, ev = Ev.call (CallOp.wait_for_completion nb tid 1800)) ∨
      (∃ dest, ev = Ev.call (CallOp.download_slide_deck nb dest none)) := by
  intro ev h
  unfold generatePhase at h
  cases hg : env.client.generate_slide_deck nb ins with
  | error e =>
    rw [hg] at h
    simp only [] at h
    fin_cases h
    · exact Or.inl ⟨_, _, _, rfl⟩
    · exact Or.inr (Or.inr (Or.inl rfl))
  | ok st =>
    rw [hg] at h
    simp only [] at h
    by_cases htid : (st.task_id == "") = true
    · rw [if_pos htid] at h
      simp only [List.append_assoc, List.cons_append, List.nil_append] at h
      fin_cases h
      · exact Or.inl ⟨_, _, _, rfl⟩
      · exact Or.inr (Or.inr (Or.inl rfl))
      · exact Or.inr (Or.inl rfl)
    · rw [if_neg htid] at h
      cases hw : env.client.wait_for_completion nb st.task_id with
      | error e =>
        rw [hw] at h
        simp only [List.append_assoc, List.cons_append, List.nil_append] at h
        fin_cases h
        · exact Or.inl ⟨_, _, _, rfl⟩
        · exact Or.inr (Or.inr (Or.inl rfl))
        · exact Or.inl ⟨_, _, _, rfl⟩
        · exact Or.inl ⟨_, _, _, rfl⟩
        · exact Or.inr (Or.inr (Or.inr (Or.inl ⟨_, rfl⟩)))
      | ok finalSt =>
        rw [hw] at h
        simp only [] at h
        cases hd : env.client.download_slide_deck nb
            (unique_path env.files (mkPyPath outDir (stem ++ "_slides.pdf"))).toStr none with
        | error e =>
          rw [hd] at h
          simp only [List.append_assoc, List.cons_append, List.nil_append] at h
          fin_cases h
          · exact Or.inl ⟨_, _, _, rfl⟩
          · exact Or.inr (Or.inr (Or.inl rfl))
          · exact Or.inl ⟨_, _, _, rfl⟩
          · exact Or.inl ⟨_, _, _, rfl⟩
          · exact Or.inr (Or.inr (Or.inr (Or.inl ⟨_, rfl⟩)))
          · split <;> exact Or.inl ⟨_, _, _, rfl⟩
          · exact Or.inl ⟨_, _, _, rfl⟩
          · exact Or.inr (Or.inr (Or.inr (Or.inr ⟨_, rfl⟩)))
        | ok dp =>
          rw [hd] at h
          simp only [List.append_assoc, List.cons_append, List.nil_append] at h
          fin_cases h
          · exact Or.inl ⟨_, _, _, rfl⟩
          · exact Or.inr (Or.inr (Or.inl rfl))
          · exact Or.inl ⟨_, _, _, rfl⟩
          · exact Or.inl ⟨_, _, _, rfl⟩
          · exact Or.inr (Or.inr (Or.inr (Or.inl ⟨_, rfl⟩)))
          · split <;> exact Or.inl ⟨_, _, _, rfl⟩
          · exact Or.inl ⟨_, _, _, rfl⟩
          · exact Or.inr (Or.inr (Or.inr (Or.inr ⟨_, rfl⟩)))
          · exact Or.inl ⟨_, _, _, rfl⟩

/-- Under an environment whose generation calls only ever return empty task
ids, the generation phase is fully determined: either the generation call
raises, or the rejection error line is emitted and the phase ends normally,
and in neither case is a completion poll or a download attempted. -/
theorem generatePhase_rejected (env : Env) (nb ins outDir stem : String)
    (Hgen : ∀ st, env.client.generate_slide_deck nb ins = Except.ok st → st.task_id = "") :
    (∃ e, env.client.generate_slide_deck nb ins = Except.error e ∧
       generatePhase env nb ins outDir stem =
         ([Ev.emit "progress" "Generating slide deck..." {},
           Ev.call (CallOp.generate_slide_deck nb ins)], Except.error e)) ∨
    generatePhase env nb ins outDir stem =
      ([Ev.emit "progress" "Generating slide deck..." {},
        Ev.call (CallOp.generate_slide_deck nb ins), Ev.emitErr genRejectedMsg],
       Except.ok ()) := by
  unfold generatePhase
  cases hg : env.client.generate_slide_deck nb ins with
  | error e => exact Or.inl ⟨e, rfl, rfl⟩
  | ok st =>
    right
    have ht := Hgen st hg
    simp [ht]

/-- If the completion wait of the generation phase was called and the
environment answers it with a terminal status, a download call follows; a
failure-flagged status additionally gets the best-effort progress note. -/
theorem generatePhase_completion (env : Env) (nb ins outDir stem tid : String) (st : GenStatus)
    (hmem : Ev.call (CallOp.wait_for_completion nb tid 1800) ∈ (generatePhase env nb ins outDir stem).1)
    (hok : env.client.wait_for_completion nb tid = Except.ok st) :
    (∃ dest, Ev.call (CallOp.download_slide_deck nb dest none) ∈ (generatePhase env nb ins outDir stem).1) ∧
    (st.is_failed = true →
      Ev.emit "progress" ("Generation status reports failed (status=" ++ st.status ++ "), attempting download anyway...") {}
        ∈ (generatePhase env nb ins outDir stem).1) := by
  unfold generatePhase at hmem ⊢
  cases hg : env.client.generate_slide_deck nb ins with
  | error e =>
    try rw [hg] at hmem
    simp at hmem
  | ok st0 =>
    try rw [hg] at hmem
    try rw [hg]
    try simp only [] at hmem
    try simp only []
    by_cases htid : (st0.task_id == "") = true
    · rw [if_pos htid] at hmem
      simp at hmem
    · try rw [if_neg htid] at hmem
      try rw [if_neg htid]
      cases hw : env.client.wait_for_completion nb st0.task_id with
      | error e =>
        try rw [hw] at hmem
        simp only [List.append_assoc, List.cons_append, List.nil_append, List.mem_cons,
          List.not_mem_nil, or_false] at hmem
        rcases hmem with h | h | h | h | h
        · simp at h
        · simp at h
        · simp at h
        · simp at h
        · simp only [Ev.call.injEq, CallOp.wait_for_completion.injEq] at h
          obtain ⟨-, htt, -⟩ := h
          rw [htt, hw] at hok
          cases hok
      | ok finalSt =>
        try rw [hw] at hmem
        try rw [hw]
        try simp only [] at hmem
        try simp only []
        have htt : tid = st0.task_id := by
          cases hd : env.client.download_slide_deck nb
              (unique_path env.files (mkPyPath outDir (stem ++ "_slides.pdf"))).toStr none with
          | error e =>
            try rw [hd] at hmem
            simp only [List.append_assoc, List.cons_append, List.nil_append, List.mem_cons,
              List.not_mem_nil, or_false] at hmem
            rcases hmem with h | h | h | h | h | h | h | h
            · simp at h
            · simp at h
            · simp at h
            · simp at h
            · simp only [Ev.call.injEq, CallOp.wait_for_completion.injEq] at h
              exact h.2.1
            · revert h
              split <;> intro h <;> simp at h
            · simp at h
            · simp at h
          | ok dp =>
            try rw [hd] at hmem
            simp only [List.append_assoc, List.cons_append, List.nil_append, List.mem_cons,
              List.not_mem_nil, or_false] at hmem
            rcases hmem with h | h | h | h | h | h | h | h | h
            · simp at h
            · simp at h
            · simp at h
            · simp at h
            · simp only [Ev.call.injEq, CallOp.wait_for_completion.injEq] at h
              exact h.2.1
            · revert h
              split <;> intro h <;> simp at h
            · simp at h
            · simp at h
            · simp at h
        have hst : st = finalSt := by
          rw [htt, hw] at hok
          exact (Except.ok.inj hok).symm
        subst hst
        constructor
        · refine ⟨(unique_path env.files (mkPyPath outDir (stem ++ "_slides.pdf"))).toStr, ?_⟩
          cases hd : env.client.download_slide_deck nb
              (unique_path env.files (mkPyPath outDir (stem ++ "_slides.pdf"))).toStr none with
          | error e =>
            try rw [hd]
            simp
          | ok dp =>
            try rw [hd]
            simp
        · intro hfail
          cases hd : env.client.download_slide_deck nb
              (unique_path env.files (mkPyPath outDir (stem ++ "_slides.pdf"))).toStr none with
          | error e =>
            try rw [hd]
            simp [hfail]
          | ok dp =>
            try rw [hd]
            simp [hfail]

/-- If the readiness loop recorded a wait call whose environment response is
an exception, the loop as a whole ends in an exception. -/
theorem readyLoop_fail_result (env : Env) (nb : String) :
    ∀ l sid t e, Ev.call (CallOp.wait_until_ready nb sid t) ∈ (readyLoop env nb l).1 →
      env.client.wait_until_ready nb sid = Except.error e →
      ∃ e2, (readyLoop env nb l).2 = Except.error e2 := by
  intro l
  induction l with
  | nil => intro sid t e h _; simp [readyLoop] at h
  | cons hd rest ih =>
    intro sid t e h herr
    obtain ⟨s0, n0⟩ := hd
    unfold readyLoop at h ⊢
    cases hw : env.client.wait_until_ready nb s0 with
    | error e0 =>
      try rw [hw]
      exact ⟨e0, rfl⟩
    | ok s =>
      try rw [hw] at h
      try rw [hw]
      try simp only [] at h
      try simp only []
      simp only [List.append_assoc, List.cons_append, List.nil_append, List.mem_cons] at h
      rcases h with h | h | h | h
      · simp at h
      · simp only [Ev.call.injEq, CallOp.wait_until_ready.injEq] at h
        obtain ⟨-, hsid, -⟩ := h
        rw [hsid, hw] at herr
        cases herr
      · simp at h
      · exact ih sid t e h herr

/-- The source ids of the wait calls recorded in a trace, in order. -/
def waitReadySids (evs : List Ev) : List String :=
  evs.filterMap (fun ev => ev.waitReadyArg.map (fun a => a.2.1))

/-- The readiness loop waits on the recorded sources in order: its wait
calls form an initial segment of the recorded source ids, the whole list
when the loop finishes normally. -/
theorem readyLoop_sids (env : Env) (nb : String) :
    ∀ l, ∃ rest, waitReadySids (readyLoop env nb l).1 ++ rest = l.map Prod.fst ∧
      ((readyLoop env nb l).2 = Except.ok () → rest = []) := by
  intro l
  induction l with
  | nil => exact ⟨[], by simp [readyLoop, waitReadySids], fun _ => rfl⟩
  | cons hd rest ih =>
    obtain ⟨s0, n0⟩ := hd
    unfold readyLoop
    cases hw : env.client.wait_until_ready nb s0 with
    | error e0 =>
      refine ⟨rest.map Prod.fst, ?_, ?_⟩
      · simp [waitReadySids, Ev.waitReadyArg]
      · intro hok
        simp at hok
    | ok s =>
      obtain ⟨tl, htl, hok⟩ := ih
      refine ⟨tl, ?_, hok⟩
      simp only [waitReadySids, List.filterMap_append, Ev.waitReadyArg] at htl ⊢
      simp [htl]

/-! ### Structural decomposition of cmd_process runs -/

/-- Events of cmd_process up to and including the notebook-creation call. -/
def evsCreate (file : String) (j : Option String) : List Ev :=
  [Ev.call CallOp.fromStorage, Ev.emit "progress" "Creating notebook..." {},
   Ev.call (CallOp.create (mkTitle (pathName file) j))]

/-- Events of cmd_process up to and including the primary upload call. -/
def evsUpload (file nb : String) (j : Option String) : List Ev :=
  evsCreate file j ++
  [Ev.emit "progress" ("Notebook created: " ++ nb) {notebook_id := some (some nb)},
   Ev.emit "progress" ("Uploading source: " ++ pathName file ++ "...") {},
   Ev.call (CallOp.add_file nb file)]

/-- Events of cmd_process up to and including the primary upload report. -/
def evsUploaded (file nb sid0 : String) (j : Option String) : List Ev :=
  evsUpload file nb j ++ [Ev.emit "progress" ("Source uploaded: " ++ sid0) {}]

/-- The two events preceding the try block of cmd_process. -/
def preEvs (outDir : String) : List Ev :=
  [Ev.mkdir outDir, Ev.emit "progress" "Connecting to NotebookLM..." {}]

/-- Exhaustive case analysis of the try-block body of cmd_process: the first
exception, if any, stops the run right there, and otherwise the generation
phase is reached with the recorded sources. -/
theorem processBody_cases (env : Env) (file outDir : String) (sp j : Option String)
    (afs urls : List String) :
    (∃ e, env.client.fromStorage = Except.error e ∧
       processBody env file outDir sp j afs urls = ([Ev.call CallOp.fromStorage], Except.error e)) ∨
    (env.client.fromStorage = Except.ok () ∧
      ((∃ e, env.client.create (mkTitle (pathName file) j) = Except.error e ∧
          processBody env file outDir sp j afs urls = (evsCreate file j, Except.error e)) ∨
       (∃ nbObj, env.client.create (mkTitle (pathName file) j) = Except.ok nbObj ∧
         ((∃ e, env.client.add_file nbObj.id file = Except.error e ∧
             processBody env file outDir sp j afs urls = (evsUpload file nbObj.id j, Except.error e)) ∨
          (∃ s0, env.client.add_file nbObj.id file = Except.ok s0 ∧
            ((∃ e, (addFilesLoop env nbObj.id afs).2 = Except.error e ∧
                processBody env file outDir sp j afs urls =
                  (evsUploaded file nbObj.id s0.id j ++ (addFilesLoop env nbObj.id afs).1,
                   Except.error e)) ∨
             (∃ mf, (addFilesLoop env nbObj.id afs).2 = Except.ok mf ∧
               ((∃ e, (urlsLoop env nbObj.id urls).2 = Except.error e ∧
                   processBody env file outDir sp j afs urls =
                     (evsUploaded file nbObj.id s0.id j ++ (addFilesLoop env nbObj.id afs).1 ++
                        (urlsLoop env nbObj.id urls).1, Except.error e)) ∨
                (∃ mu, (urlsLoop env nbObj.id urls).2 = Except.ok mu ∧
                  ((∃ e, (readyLoop env nbObj.id ((s0.id, pathName file) :: (mf ++ mu))).2 = Except.error e ∧
                      processBody env file outDir sp j afs urls =
                        (evsUploaded file nbObj.id s0.id j ++ (addFilesLoop env nbObj.id afs).1 ++
                           (urlsLoop env nbObj.id urls).1 ++
                           (readyLoop env nbObj.id ((s0.id, pathName file) :: (mf ++ mu))).1,
                         Except.error e)) ∨
                   ((readyLoop env nbObj.id ((s0.id, pathName file) :: (mf ++ mu))).2 = Except.ok () ∧
                      processBody env file outDir sp j afs urls =
                        (evsUploaded file nbObj.id s0.id j ++ (addFilesLoop env nbObj.id afs).1 ++
                           (urlsLoop env nbObj.id urls).1 ++
                           (readyLoop env nbObj.id ((s0.id, pathName file) :: (mf ++ mu))).1 ++
                           (generatePhase env nbObj.id (resolveInstructions sp) outDir (pathStem file)).1,
                         (generatePhase env nbObj.id (resolveInstructions sp) outDir (pathStem file)).2)))))))))))) := by
  unfold processBody
  cases hfs : env.client.fromStorage with
  | error e => exact Or.inl ⟨e, rfl, rfl⟩
  | ok u =>
    cases u
    try simp only []
    refine Or.inr ⟨by trivial, ?_⟩
    cases hcr : env.client.create (mkTitle (pathName file) j) with
    | error e =>
      try simp only []
      exact Or.inl ⟨e, by trivial, by rfl⟩
    | ok nbObj =>
      try simp only []
      refine Or.inr ⟨nbObj, by trivial, ?_⟩
      cases haf : env.client.add_file nbObj.id file with
      | error e =>
        try simp only []
        exact Or.inl ⟨e, by trivial, by rfl⟩
      | ok s0 =>
        try simp only []
        refine Or.inr ⟨s0, by trivial, ?_⟩
        rcases hal : (addFilesLoop env nbObj.id afs).2 with e | mf
        · exact Or.inl ⟨e, by trivial, by rfl⟩
        · refine Or.inr ⟨mf, by trivial, ?_⟩
          try simp only []
          rcases hul : (urlsLoop env nbObj.id urls).2 with e | mu
          · exact Or.inl ⟨e, by trivial, by rfl⟩
          · refine Or.inr ⟨mu, by trivial, ?_⟩
            try simp only []
            rcases hrl : (readyLoop env nbObj.id ((s0.id, pathName file) :: (mf ++ mu))).2 with e | v
            · exact Or.inl ⟨e, by trivial, by rfl⟩
            · cases v
              exact Or.inr ⟨by trivial, by rfl⟩

/-- Exhaustive case analysis of cmd_process: missing primary file, failing
directory creation (which escapes uncaught), failing try-block body (one
terminal error line), or normal completion. -/
theorem cmd_process_cases (env : Env) (file outDir : String) (sp j : Option String)
    (afs urls : Option (List String)) :
    (env.existsFile file = false ∧
       cmd_process env file outDir sp j afs urls =
         ([Ev.emitErr ("File not found: " ++ file)], Outcome.normal)) ∨
    (env.existsFile file = true ∧
      ((∃ e, env.mkdirRes outDir = Except.error e ∧
          cmd_process env file outDir sp j afs urls = ([Ev.mkdir outDir], Outcome.uncaught e)) ∨
       (env.mkdirRes outDir = Except.ok () ∧
         ((∃ evs e, processBody env file outDir sp j (afs.getD []) (urls.getD []) = (evs, Except.error e) ∧
             cmd_process env file outDir sp j afs urls =
               (preEvs outDir ++ evs ++ [catchEvent "Process failed: " e], Outcome.normal)) ∨
          (∃ evs, processBody env file outDir sp j (afs.getD []) (urls.getD []) = (evs, Except.ok ()) ∧
             cmd_process env file outDir sp j afs urls =
               (preEvs outDir ++ evs, Outcome.normal)))))) := by
  unfold cmd_process
  by_cases hex : env.existsFile file = false
  · rw [if_pos hex]
    exact Or.inl ⟨hex, rfl⟩
  · rw [if_neg hex]
    have hex2 : env.existsFile file = true := by
      cases hc : env.existsFile file
      · exact absurd hc hex
      · rfl
    refine Or.inr ⟨hex2, ?_⟩
    cases hm : env.mkdirRes outDir with
    | error e =>
      try simp only []
      exact Or.inl ⟨e, by trivial, by rfl⟩
    | ok u =>
      cases u
      try simp only []
      refine Or.inr ⟨by trivial, ?_⟩
      try simp only []
      rcases hpb : processBody env file outDir sp j (afs.getD []) (urls.getD []) with ⟨evs, r⟩
      cases r with
      | error e =>
        try simp only []
        exact Or.inl ⟨evs, e, rfl, by rfl⟩
      | ok v =>
        cases v
        try simp only []
        exact Or.inr ⟨evs, rfl, by rfl⟩

theorem addFilesLoop_flags (env : Env) (nb : String) (l : List String) :
    ∀ ev ∈ (addFilesLoop env nb l).1,
      ev.isGenerateCall = false ∧ ev.isWaitCompletionCall = false ∧ ev.isDownloadCall = false ∧
      ev.isCreateCall = false ∧ ev.isErrorEv = false ∧ ev.waitReadyArg = none := by
  intro ev h
  rcases addFilesLoop_events env nb l ev h with ⟨m, x, rfl⟩ | ⟨q, rfl⟩ <;>
    exact ⟨rfl, rfl, rfl, rfl, rfl, rfl⟩

theorem urlsLoop_flags (env : Env) (nb : String) (l : List String) :
    ∀ ev ∈ (urlsLoop env nb l).1,
      ev.isGenerateCall = false ∧ ev.isWaitCompletionCall = false ∧ ev.isDownloadCall = false ∧
      ev.isCreateCall = false ∧ ev.isErrorEv = false ∧ ev.waitReadyArg = none := by
  intro ev h
  rcases urlsLoop_events env nb l ev h with ⟨m, x, rfl⟩ | ⟨u, rfl⟩ <;>
    exact ⟨rfl, rfl, rfl, rfl, rfl, rfl⟩

theorem readyLoop_flags (env : Env) (nb : String) (l : List (String × String)) :
    ∀ ev ∈ (readyLoop env nb l).1,
      ev.isGenerateCall = false ∧ ev.isWaitCompletionCall = false ∧ ev.isDownloadCall = false ∧
      ev.isCreateCall = false ∧ ev.isErrorEv = false ∧
      (ev.waitReadyArg = none ∨ ∃ sid, ev.waitReadyArg = some (nb, sid, 300)) := by
  intro ev h
  rcases readyLoop_events env nb l ev h with ⟨m, x, rfl⟩ | ⟨sid, rfl, -⟩
  · exact ⟨rfl, rfl, rfl, rfl, rfl, Or.inl rfl⟩
  · exact ⟨rfl, rfl, rfl, rfl, rfl, Or.inr ⟨sid, rfl⟩⟩

theorem generatePhase_flags (env : Env) (nb ins outDir stem : String) :
    ∀ ev ∈ (generatePhase env nb ins outDir stem).1,
      ev.isCreateCall = false ∧ ev.waitReadyArg = none := by
  intro ev h
  rcases generatePhase_events env nb ins outDir stem ev h with
    ⟨s, m, x, rfl⟩ | rfl | rfl | ⟨tid, rfl⟩ | ⟨dest, rfl⟩ <;> exact ⟨rfl, rfl⟩

theorem catchEvent_flags (ctx : String) (e : PyExc) :
    (catchEvent ctx e).isGenerateCall = false ∧ (catchEvent ctx e).isWaitCompletionCall = false ∧
    (catchEvent ctx e).isDownloadCall = false ∧ (catchEvent ctx e).isCreateCall = false ∧
    (catchEvent ctx e).isErrorEv = true ∧ (catchEvent ctx e).waitReadyArg = none := by
  unfold catchEvent
  split <;> exact ⟨rfl, rfl, rfl, rfl, rfl, rfl⟩

/-! ### Containment facts about the constructed notebook title -/

theorem beginsWith_append (nd rest : List Char) : beginsWith nd (nd ++ rest) = true := by
  induction nd with
  | nil => rfl
  | cons a as ih => simp [beginsWith, ih]

theorem subListOf_middle : ∀ (pre nd suf : List Char), subListOf nd (pre ++ (nd ++ suf)) = true := by
  intro pre
  induction pre with
  | nil =>
    intro nd suf
    cases nd with
    | nil =>
      cases suf with
      | nil => rfl
      | cons b bs => simp [subListOf, beginsWith]
    | cons a as =>
      simp only [List.nil_append, List.cons_append, subListOf, List.append_eq]
      have := beginsWith_append (a :: as) suf
      simp only [List.cons_append] at this
      rw [this]
      simp
  | cons c pres ih =>
    intro nd suf
    simp only [List.cons_append, subListOf, List.append_eq]
    rw [ih nd suf]
    simp

theorem strIn_append_middle (pre mid suf : String) : strIn mid (pre ++ mid ++ suf) = true := by
  unfold strIn
  rw [String.data_append, String.data_append, List.append_assoc]
  exact subListOf_middle pre.data mid.data suf.data

theorem strIn_empty (s : String) : strIn "" s = true := by
  unfold strIn
  cases hd : s.data with
  | nil => rfl
  | cons b bs => simp [subListOf, beginsWith]

theorem strIn_mkTitle (name j : String) : strIn j (mkTitle name (some j)) = true := by
  unfold mkTitle
  simp only []
  by_cases hj : (j == "") = true
  · rw [if_pos hj]
    have hj2 : j = "" := by simpa using hj
    subst hj2
    exact strIn_empty _
  · rw [if_neg hj]
    exact strIn_append_middle ("Auto Slide: " ++ name ++ " [") j "]"

/-! ### Concrete environments used to instantiate the theorems -/

/-- A workspace client that answers every call successfully. -/
def okClient : ClientEnv where
  fromStorage := Except.ok ()
  create := fun t => Except.ok ⟨"nb1", t⟩
  add_file := fun _ q => Except.ok ⟨"src-" ++ pathName q, pathName q⟩
  add_url := fun _ u => Except.ok ⟨"usrc-1", u⟩
  wait_until_ready := fun _ sid => Except.ok ⟨sid, "ready"⟩
  generate_slide_deck := fun _ _ => Except.ok ⟨"task1", "pending", false, false⟩
  wait_for_completion := fun _ _ => Except.ok ⟨"task1", "completed", true, false⟩
  download_slide_deck := fun _ d _ => Except.ok d
  listNb := Except.ok []
  listArts := fun _ => Except.ok []
  poll_status := fun _ _ => Except.ok ⟨"task1", "processing", false, false⟩

/-- A browser session on which login is detected in the first poll pass. -/
def okLogin : LoginEnv where
  playwrightOk := true
  pathsOk := Except.ok "/home/u/.notebooklm/storage.json"
  launch := Except.ok ()
  pageUrl := fun _ => "https://notebooklm.google.com/"
  settle := fun _ => Except.ok ()
  urlAfter := fun _ => "https://notebooklm.google.com/"
  saveState := Except.ok ()

/-- A credential store with valid saved tokens. -/
def okAuth : AuthEnv where
  storagePathRes := Except.ok "/home/u/.notebooklm/storage.json"
  storageExists := true
  tokens := Except.ok ("csrf-token-value", "session-value")

/-- A base environment: one existing input file, everything succeeding. -/
def envBase : Env where
  files := ["in/doc.txt"]
  mkdirRes := fun _ => Except.ok ()
  client := okClient
  login := okLogin
  auth := okAuth

/-- C1: a process invocation whose primary file does not exist emits exactly
one error event, performs no workspace-client call, and creates no
directory (the whole trace is the single error line). -/
theorem c1_missing_primary (env : Env) (file outDir : String) (sp j : Option String)
    (afs urls : Option (List String)) (h : env.existsFile file = false) :
    cmd_process env file outDir sp j afs urls =
      ([Ev.emitErr ("File not found: " ++ file)], Outcome.normal) ∧
    (∀ ev ∈ (cmd_process env file outDir sp j afs urls).1, ev.isClientCall = false) ∧
    (∀ d, Ev.mkdir d ∉ (cmd_process env file outDir sp j afs urls).1) ∧
    (cmd_process env file outDir sp j afs urls).1.countP (fun ev => ev.isErrorEv) = 1 := by
  rcases cmd_process_cases env file outDir sp j afs urls with ⟨-, heq⟩ | ⟨hex, -⟩
  · refine ⟨heq, ?_, ?_, ?_⟩
    · intro ev hev
      rw [heq] at hev
      simp only [List.mem_cons, List.not_mem_nil, or_false] at hev
      subst hev
      rfl
    · intro d hd
      rw [heq] at hd
      simp at hd
    · rw [heq]
      rfl
  · rw [h] at hex
    cases hex

/-- C1 witness: a concrete run on a missing file. -/
theorem c1_missing_primary_witness :
    envBase.existsFile "missing.txt" = false ∧
    (cmd_process envBase "missing.txt" "out" none none none none =
        ([Ev.emitErr ("File not found: " ++ "missing.txt")], Outcome.normal) ∧
     (∀ ev ∈ (cmd_process envBase "missing.txt" "out" none none none none).1, ev.isClientCall = false) ∧
     (∀ d, Ev.mkdir d ∉ (cmd_process envBase "missing.txt" "out" none none none none).1) ∧
     (cmd_process envBase "missing.txt" "out" none none none none).1.countP (fun ev => ev.isErrorEv) = 1) :=
  ⟨by decide, c1_missing_primary envBase "missing.txt" "out" none none none none (by decide)⟩

/-- The only notebook-creation call the try-block body ever records carries
the canonical title built from the primary file name and the job id. -/
theorem processBody_create_title (env : Env) (file outDir : String) (sp j : Option String)
    (afs urls : List String) :
    ∀ t, Ev.call (CallOp.create t) ∈ (processBody env file outDir sp j afs urls).1 →
      t = mkTitle (pathName file) j := by
  intro t hmem
  rcases processBody_cases env file outDir sp j afs urls with
    ⟨e, -, heq⟩ | ⟨-, hrest⟩
  · rw [heq] at hmem
    simp at hmem
  rcases hrest with ⟨e, -, heq⟩ | ⟨nbObj, -, hrest⟩
  · rw [heq] at hmem
    simpa [evsCreate] using hmem
  rcases hrest with ⟨e, -, heq⟩ | ⟨s0, -, hrest⟩
  · rw [heq] at hmem
    simpa [evsUpload, evsCreate] using hmem
  have hloopA := addFilesLoop_flags env nbObj.id afs
  have hloopU := urlsLoop_flags env nbObj.id urls
  rcases hrest with ⟨e, -, heq⟩ | ⟨mf, -, hrest⟩
  · rw [heq] at hmem
    simp [evsUploaded, evsUpload, evsCreate] at hmem
    rcases hmem with h | h
    · exact h
    · simpa [Ev.isCreateCall] using (hloopA _ h).2.2.2.1
  rcases hrest with ⟨e, -, heq⟩ | ⟨mu, -, hrest⟩
  · rw [heq] at hmem
    simp [evsUploaded, evsUpload, evsCreate] at hmem
    rcases hmem with h | h | h
    · exact h
    · simpa [Ev.isCreateCall] using (hloopA _ h).2.2.2.1
    · simpa [Ev.isCreateCall] using (hloopU _ h).2.2.2.1
  have hloopR := readyLoop_flags env nbObj.id ((s0.id, pathName file) :: (mf ++ mu))
  rcases hrest with ⟨e, -, heq⟩ | ⟨-, heq⟩
  · rw [heq] at hmem
    simp [evsUploaded, evsUpload, evsCreate] at hmem
    rcases hmem with h | h | h | h
    · exact h
    · simpa [Ev.isCreateCall] using (hloopA _ h).2.2.2.1
    · simpa [Ev.isCreateCall] using (hloopU _ h).2.2.2.1
    · simpa [Ev.isCreateCall] using (hloopR _ h).2.2.2.1
  · have hgp := generatePhase_flags env nbObj.id (resolveInstructions sp) outDir (pathStem file)
    rw [heq] at hmem
    simp [evsUploaded, evsUpload, evsCreate] at hmem
    rcases hmem with h | h | h | h | h
    · exact h
    · simpa [Ev.isCreateCall] using (hloopA _ h).2.2.2.1
    · simpa [Ev.isCreateCall] using (hloopU _ h).2.2.2.1
    · simpa [Ev.isCreateCall] using (hloopR _ h).2.2.2.1
    · simpa [Ev.isCreateCall] using (hgp _ h).1

/-- When exactly one listed notebook title contains the job id, the scan of
cmd_find_notebook reports that notebook: a done event carrying its id is
emitted, whichever branch of the artifact inspection is taken. -/
theorem findLoop_unique (env : Env) (jid : String) :
    ∀ nbs (nb0 : Notebook) (arts : List Artifact), nb0 ∈ nbs →
      (∀ n ∈ nbs, (strIn jid n.title = true ↔ n = nb0)) →
      env.client.listArts nb0.id = Except.ok arts →
      ∃ m x, Ev.emit "done" m x ∈ (findLoop env jid nbs).1 ∧
        x.notebook_id = some (some nb0.id) := by
  intro nbs
  induction nbs with
  | nil =>
    intro nb0 arts h _ _
    simp at h
  | cons n rest ih =>
    intro nb0 arts hmem huniq hla
    by_cases hin : strIn jid n.title = true
    · have hn0 : n = nb0 := (huniq n (List.mem_cons_self n rest)).mp hin
      subst hn0
      unfold findLoop
      rw [if_pos hin]
      try simp only []
      rw [hla]
      try simp only []
      cases hfind : arts.find? artifactIsSlide with
      | some a =>
        refine ⟨"Found notebook with slide artifact",
          {notebook_id := some (some n.id), task_id := some a.id,
           generation_status := some (if a.is_completed then "completed"
             else if a.is_processing then "processing" else "failed"),
           is_complete := some a.is_completed, is_failed := some a.is_failed}, ?_, rfl⟩
        simp
      | none =>
        refine ⟨"Found notebook but no slide artifact",
          {notebook_id := some (some n.id), generation_status := some "no_artifact"}, ?_, rfl⟩
        simp
    · have hn0 : n ≠ nb0 := by
        intro hcontra
        subst hcontra
        exact hin ((huniq n (List.mem_cons_self n rest)).mpr rfl)
      have hmem2 : nb0 ∈ rest := by
        rcases List.mem_cons.mp hmem with h | h
        · exact absurd h hn0.symm
        · exact h
      unfold findLoop
      rw [if_neg hin]
      exact ih nb0 arts hmem2 (fun k hk => huniq k (List.mem_cons_of_mem n hk)) hla

/-- C2: round-trip recovery by job identifier.  Every notebook-creation call
a process run makes carries a title containing the supplied job identifier
verbatim; and when exactly one listed notebook title contains the
identifier, cmd_find_notebook emits a done event carrying exactly that
notebook id. -/
theorem c2_job_id_roundtrip :
    (∀ (env : Env) (file outDir : String) (sp : Option String) (jid : String)
        (afs urls : Option (List String)) (t : String),
        Ev.call (CallOp.create t) ∈ (cmd_process env file outDir sp (some jid) afs urls).1 →
        strIn jid t = true) ∧
    (∀ (env : Env) (jid : String) (nbs : List Notebook) (nb0 : Notebook) (arts : List Artifact),
        env.client.fromStorage = Except.ok () →
        env.client.listNb = Except.ok nbs →
        nb0 ∈ nbs →
        (∀ n ∈ nbs, (strIn jid n.title = true ↔ n = nb0)) →
        env.client.listArts nb0.id = Except.ok arts →
        ∃ m x, Ev.emit "done" m x ∈ (cmd_find_notebook env jid).1 ∧
          x.notebook_id = some (some nb0.id)) := by
  constructor
  · intro env file outDir sp jid afs urls t hmem
    have ht : t = mkTitle (pathName file) (some jid) := by
      rcases cmd_process_cases env file outDir sp (some jid) afs urls with
        ⟨-, heq⟩ | ⟨-, hrest⟩
      · rw [heq] at hmem
        simp at hmem
      rcases hrest with ⟨e, -, heq⟩ | ⟨-, hrest⟩
      · rw [heq] at hmem
        simp at hmem
      rcases hrest with ⟨evs, e, hpb, heq⟩ | ⟨evs, hpb, heq⟩
      · rw [heq] at hmem
        simp [preEvs] at hmem
        rcases hmem with h | h
        · have hbody := processBody_create_title env file outDir sp (some jid)
            (afs.getD []) (urls.getD []) t
          rw [hpb] at hbody
          exact hbody h
        · have hc := (catchEvent_flags "Process failed: " e).2.2.2.1
          rw [← h] at hc
          simpa [Ev.isCreateCall] using hc
      · rw [heq] at hmem
        simp [preEvs] at hmem
        have hbody := processBody_create_title env file outDir sp (some jid)
          (afs.getD []) (urls.getD []) t
        rw [hpb] at hbody
        exact hbody hmem
    rw [ht]
    exact strIn_mkTitle (pathName file) jid
  · intro env jid nbs nb0 arts hfs hln hmem huniq hla
    obtain ⟨m, x, hdone, hnb⟩ := findLoop_unique env jid nbs nb0 arts hmem huniq hla
    refine ⟨m, x, ?_, hnb⟩
    unfold cmd_find_notebook
    rw [hfs]
    try simp only []
    rw [hln]
    try simp only []
    rcases hfl : (findLoop env jid nbs).2 with e | v
    · simp [hdone]
    · simp [hdone]

/-- A remote notebook whose title embeds a job identifier. -/
def nbF : Notebook := ⟨"nb-found", "Auto Slide: doc.txt [JOB42]"⟩

/-- Environment whose notebook listing holds exactly the one notebook. -/
def envFind : Env := { envBase with client := { okClient with listNb := Except.ok [nbF] } }

/-- C2 witness: a concrete process run whose creation call carries the job
id, and a concrete listing from which the notebook is recovered. -/
theorem c2_job_id_roundtrip_witness :
    (Ev.call (CallOp.create (mkTitle (pathName "in/doc.txt") (some "JOB42"))) ∈
        (cmd_process envBase "in/doc.txt" "out" none (some "JOB42") none none).1 ∧
     strIn "JOB42" (mkTitle (pathName "in/doc.txt") (some "JOB42")) = true) ∧
    (envFind.client.fromStorage = Except.ok () ∧
     envFind.client.listNb = Except.ok [nbF] ∧
     nbF ∈ [nbF] ∧
     (∀ n ∈ [nbF], (strIn "JOB42" n.title = true ↔ n = nbF)) ∧
     envFind.client.listArts nbF.id = Except.ok [] ∧
     (∃ m x, Ev.emit "done" m x ∈ (cmd_find_notebook envFind "JOB42").1 ∧
        x.notebook_id = some (some nbF.id))) := by
  constructor
  · constructor
    · decide
    · exact c2_job_id_roundtrip.1 envBase "in/doc.txt" "out" none "JOB42" none none _ (by decide)
  · refine ⟨rfl, rfl, by decide, by decide, rfl, ?_⟩
    exact c2_job_id_roundtrip.2 envFind "JOB42" [nbF] nbF [] rfl rfl (by decide) (by decide) rfl

/-- Under an environment whose generation calls only return empty task ids,
the try-block body never records a completion poll or a download call, and
whenever its generation call returned normally the rejection error line is
in its trace. -/
theorem processBody_rejected (env : Env) (file outDir : String) (sp j : Option String)
    (afs urls : List String)
    (Hgen : ∀ nb ins st, env.client.generate_slide_deck nb ins = Except.ok st → st.task_id = "") :
    (∀ ev ∈ (processBody env file outDir sp j afs urls).1,
        ev.isWaitCompletionCall = false ∧ ev.isDownloadCall = false) ∧
    ((∃ nb ins st, Ev.call (CallOp.generate_slide_deck nb ins) ∈ (processBody env file outDir sp j afs urls).1 ∧
        env.client.generate_slide_deck nb ins = Except.ok st) →
      Ev.emitErr genRejectedMsg ∈ (processBody env file outDir sp j afs urls).1) := by
  rcases processBody_cases env file outDir sp j afs urls with
    ⟨e, -, heq⟩ | ⟨-, hrest⟩
  · rw [heq]
    constructor
    · intro ev hev
      simp only [List.mem_cons, List.not_mem_nil, or_false] at hev
      subst hev
      exact ⟨rfl, rfl⟩
    · rintro ⟨nb, ins, st, hmem, -⟩
      simp at hmem
  · rcases hrest with ⟨e, -, heq⟩ | ⟨nbObj, -, hrest⟩
    · rw [heq]
      constructor
      · intro ev hev
        simp only [evsCreate, List.mem_cons, List.not_mem_nil, or_false] at hev
        rcases hev with rfl | rfl | rfl <;> exact ⟨rfl, rfl⟩
      · rintro ⟨nb, ins, st, hmem, -⟩
        simp [evsCreate] at hmem
    rcases hrest with ⟨e, -, heq⟩ | ⟨s0, -, hrest⟩
    · rw [heq]
      constructor
      · intro ev hev
        simp only [evsUpload, evsCreate, List.cons_append, List.nil_append,
          List.mem_cons, List.not_mem_nil, or_false] at hev
        rcases hev with rfl | rfl | rfl | rfl | rfl | rfl <;> exact ⟨rfl, rfl⟩
      · rintro ⟨nb, ins, st, hmem, -⟩
        simp [evsUpload, evsCreate] at hmem
    have flagsA := addFilesLoop_flags env nbObj.id afs
    have flagsU := urlsLoop_flags env nbObj.id urls
    rcases hrest with ⟨e, -, heq⟩ | ⟨mf, -, hrest⟩
    · rw [heq]
      constructor
      · intro ev hev
        rcases List.mem_append.mp hev with hFix | hA
        · simp only [evsUploaded, evsUpload, evsCreate, List.cons_append, List.nil_append,
            List.append_assoc, List.mem_cons, List.mem_append, List.not_mem_nil, or_false] at hFix
          rcases hFix with rfl | rfl | rfl | rfl | rfl | rfl | rfl <;> exact ⟨rfl, rfl⟩
        · exact ⟨(flagsA _ hA).2.1, (flagsA _ hA).2.2.1⟩
      · rintro ⟨nb, ins, st, hmem, -⟩
        rcases List.mem_append.mp hmem with hFix | hA
        · simp [evsUploaded, evsUpload, evsCreate] at hFix
        · simpa [Ev.isGenerateCall] using (flagsA _ hA).1
    rcases hrest with ⟨e, -, heq⟩ | ⟨mu, -, hrest⟩
    · rw [heq]
      constructor
      · intro ev hev
        rcases List.mem_append.mp hev with h1 | hU
        · rcases List.mem_append.mp h1 with hFix | hA
          · simp only [evsUploaded, evsUpload, evsCreate, List.cons_append, List.nil_append,
              List.append_assoc, List.mem_cons, List.mem_append, List.not_mem_nil, or_false] at hFix
            rcases hFix with rfl | rfl | rfl | rfl | rfl | rfl | rfl <;> exact ⟨rfl, rfl⟩
          · exact ⟨(flagsA _ hA).2.1, (flagsA _ hA).2.2.1⟩
        · exact ⟨(flagsU _ hU).2.1, (flagsU _ hU).2.2.1⟩
      · rintro ⟨nb, ins, st, hmem, -⟩
        rcases List.mem_append.mp hmem with h1 | hU
        · rcases List.mem_append.mp h1 with hFix | hA
          · simp [evsUploaded, evsUpload, evsCreate] at hFix
          · simpa [Ev.isGenerateCall] using (flagsA _ hA).1
        · simpa [Ev.isGenerateCall] using (flagsU _ hU).1
    have flagsR := readyLoop_flags env nbObj.id ((s0.id, pathName file) :: (mf ++ mu))
    rcases hrest with ⟨e, -, heq⟩ | ⟨-, heq⟩
    · rw [heq]
      constructor
      · intro ev hev
        rcases List.mem_append.mp hev with h1 | hR
        · rcases List.mem_append.mp h1 with h1 | hU
          · rcases List.mem_append.mp h1 with hFix | hA
            · simp only [evsUploaded, evsUpload, evsCreate, List.cons_append, List.nil_append,
                List.append_assoc, List.mem_cons, List.mem_append, List.not_mem_nil, or_false] at hFix
              rcases hFix with rfl | rfl | rfl | rfl | rfl | rfl | rfl <;> exact ⟨rfl, rfl⟩
            · exact ⟨(flagsA _ hA).2.1, (flagsA _ hA).2.2.1⟩
          · exact ⟨(flagsU _ hU).2.1, (flagsU _ hU).2.2.1⟩
        · exact ⟨(flagsR _ hR).2.1, (flagsR _ hR).2.2.1⟩
      · rintro ⟨nb, ins, st, hmem, -⟩
        rcases List.mem_append.mp hmem with h1 | hR
        · rcases List.mem_append.mp h1 with h1 | hU
          · rcases List.mem_append.mp h1 with hFix | hA
            · simp [evsUploaded, evsUpload, evsCreate] at hFix
            · simpa [Ev.isGenerateCall] using (flagsA _ hA).1
          · simpa [Ev.isGenerateCall] using (flagsU _ hU).1
        · simpa [Ev.isGenerateCall] using (flagsR _ hR).1
    · rcases generatePhase_rejected env nbObj.id (resolveInstructions sp) outDir (pathStem file)
        (fun st h => Hgen _ _ st h) with ⟨eg, hgenv, hgeq⟩ | hgeq
      all_goals rw [hgeq] at heq
      all_goals try simp only [] at heq
      all_goals rw [heq]
      · constructor
        · intro ev hev
          rcases List.mem_append.mp hev with h1 | hG
          · rcases List.mem_append.mp h1 with h1 | hR
            · rcases List.mem_append.mp h1 with h1 | hU
              · rcases List.mem_append.mp h1 with hFix | hA
                · simp only [evsUploaded, evsUpload, evsCreate, List.cons_append, List.nil_append,
                    List.append_assoc, List.mem_cons, List.mem_append, List.not_mem_nil, or_false] at hFix
                  rcases hFix with rfl | rfl | rfl | rfl | rfl | rfl | rfl <;> exact ⟨rfl, rfl⟩
                · exact ⟨(flagsA _ hA).2.1, (flagsA _ hA).2.2.1⟩
              · exact ⟨(flagsU _ hU).2.1, (flagsU _ hU).2.2.1⟩
            · exact ⟨(flagsR _ hR).2.1, (flagsR _ hR).2.2.1⟩
          · simp only [List.mem_cons, List.not_mem_nil, or_false] at hG
            rcases hG with rfl | rfl <;> exact ⟨rfl, rfl⟩
        · rintro ⟨nb, ins, st, hmem, hok⟩
          rcases List.mem_append.mp hmem with h1 | hG
          · rcases List.mem_append.mp h1 with h1 | hR
            · rcases List.mem_append.mp h1 with h1 | hU
              · rcases List.mem_append.mp h1 with hFix | hA
                · simp [evsUploaded, evsUpload, evsCreate] at hFix
                · simpa [Ev.isGenerateCall] using (flagsA _ hA).1
              · simpa [Ev.isGenerateCall] using (flagsU _ hU).1
            · simpa [Ev.isGenerateCall] using (flagsR _ hR).1
          · simp only [List.mem_cons, List.not_mem_nil, or_false] at hG
            rcases hG with hG | hG
            · simp at hG
            · simp only [Ev.call.injEq, CallOp.generate_slide_deck.injEq] at hG
              obtain ⟨hnb, hins⟩ := hG
              rw [hnb, hins, hgenv] at hok
              cases hok
      · constructor
        · intro ev hev
          rcases List.mem_append.mp hev with h1 | hG
          · rcases List.mem_append.mp h1 with h1 | hR
            · rcases List.mem_append.mp h1 with h1 | hU
              · rcases List.mem_append.mp h1 with hFix | hA
                · simp only [evsUploaded, evsUpload, evsCreate, List.cons_append, List.nil_append,
                    List.append_assoc, List.mem_cons, List.mem_append, List.not_mem_nil, or_false] at hFix
                  rcases hFix with rfl | rfl | rfl | rfl | rfl | rfl | rfl <;> exact ⟨rfl, rfl⟩
                · exact ⟨(flagsA _ hA).2.1, (flagsA _ hA).2.2.1⟩
              · exact ⟨(flagsU _ hU).2.1, (flagsU _ hU).2.2.1⟩
            · exact ⟨(flagsR _ hR).2.1, (flagsR _ hR).2.2.1⟩
          · simp only [List.mem_cons, List.not_mem_nil, or_false] at hG
            rcases hG with rfl | rfl | rfl <;> exact ⟨rfl, rfl⟩
        · intro _
          apply List.mem_append.mpr
          right
          simp

/-- C3: when the generation call returns an empty task identifier, the run
emits the rejection error line and never invokes the completion poll or the
download operation; there is no retry. -/
theorem c3_generation_rejected (env : Env) (file outDir : String) (sp j : Option String)
    (afs urls : Option (List String))
    (Hgen : ∀ nb ins st, env.client.generate_slide_deck nb ins = Except.ok st → st.task_id = "") :
    (∀ ev ∈ (cmd_process env file outDir sp j afs urls).1,
        ev.isWaitCompletionCall = false ∧ ev.isDownloadCall = false) ∧
    ((∃ nb ins st, Ev.call (CallOp.generate_slide_deck nb ins) ∈ (cmd_process env file outDir sp j afs urls).1 ∧
        env.client.generate_slide_deck nb ins = Except.ok st) →
      Ev.emitErr genRejectedMsg ∈ (cmd_process env file outDir sp j afs urls).1) := by
  obtain ⟨hb1, hb2⟩ := processBody_rejected env file outDir sp j (afs.getD []) (urls.getD []) Hgen
  rcases cmd_process_cases env file outDir sp j afs urls with ⟨-, heq⟩ | ⟨-, hrest⟩
  · rw [heq]
    constructor
    · intro ev hev
      simp only [List.mem_cons, List.not_mem_nil, or_false] at hev
      subst hev
      exact ⟨rfl, rfl⟩
    · rintro ⟨nb, ins, st, hmem, -⟩
      simp at hmem
  rcases hrest with ⟨e, -, heq⟩ | ⟨-, hrest⟩
  · rw [heq]
    constructor
    · intro ev hev
      simp only [List.mem_cons, List.not_mem_nil, or_false] at hev
      subst hev
      exact ⟨rfl, rfl⟩
    · rintro ⟨nb, ins, st, hmem, -⟩
      simp at hmem
  rcases hrest with ⟨evs, e, hpb, heq⟩ | ⟨evs, hpb, heq⟩
  · rw [hpb] at hb1 hb2
    simp only [] at hb1 hb2
    rw [heq]
    constructor
    · intro ev hev
      rcases List.mem_append.mp hev with h1 | hC
      · rcases List.mem_append.mp h1 with hP | hB
        · simp only [preEvs, List.mem_cons, List.not_mem_nil, or_false] at hP
          rcases hP with rfl | rfl <;> exact ⟨rfl, rfl⟩
        · exact hb1 ev hB
      · simp only [List.mem_cons, List.not_mem_nil, or_false] at hC
        subst hC
        have hcf := catchEvent_flags "Process failed: " e
        exact ⟨hcf.2.1, hcf.2.2.1⟩
    · rintro ⟨nb, ins, st, hmem, hok⟩
      rcases List.mem_append.mp hmem with h1 | hC
      · rcases List.mem_append.mp h1 with hP | hB
        · simp [preEvs] at hP
        · have hin := hb2 ⟨nb, ins, st, hB, hok⟩
          exact List.mem_append.mpr (Or.inl (List.mem_append.mpr (Or.inr hin)))
      · simp only [List.mem_cons, List.not_mem_nil, or_false] at hC
        have hcf := (catchEvent_flags "Process failed: " e).1
        rw [← hC] at hcf
        simpa [Ev.isGenerateCall] using hcf
  · rw [hpb] at hb1 hb2
    simp only [] at hb1 hb2
    rw [heq]
    constructor
    · intro ev hev
      rcases List.mem_append.mp hev with hP | hB
      · simp only [preEvs, List.mem_cons, List.not_mem_nil, or_false] at hP
        rcases hP with rfl | rfl <;> exact ⟨rfl, rfl⟩
      · exact hb1 ev hB
    · rintro ⟨nb, ins, st, hmem, hok⟩
      rcases List.mem_append.mp hmem with hP | hB
      · simp [preEvs] at hP
      · exact List.mem_append.mpr (Or.inr (hb2 ⟨nb, ins, st, hB, hok⟩))

/-- Environment whose generation call is accepted but returns no task id. -/
def envRej : Env :=
  { envBase with client :=
    { okClient with generate_slide_deck := fun _ _ => Except.ok ⟨"", "pending", false, false⟩ } }

/-- C3 witness: a concrete run whose generation is rejected; the rejection
error line is emitted and the trace holds no completion poll or download. -/
theorem c3_generation_rejected_witness :
    ((∀ ev ∈ (cmd_process envRej "in/doc.txt" "out" none none none none).1,
        ev.isWaitCompletionCall = false ∧ ev.isDownloadCall = false) ∧
     ((∃ nb ins st, Ev.call (CallOp.generate_slide_deck nb ins) ∈ (cmd_process envRej "in/doc.txt" "out" none none none none).1 ∧
         envRej.client.generate_slide_deck nb ins = Except.ok st) →
       Ev.emitErr genRejectedMsg ∈ (cmd_process envRej "in/doc.txt" "out" none none none none).1)) ∧
    Ev.emitErr genRejectedMsg ∈ (cmd_process envRej "in/doc.txt" "out" none none none none).1 := by
  have h := c3_generation_rejected envRej "in/doc.txt" "out" none none none none
    (fun _ _ st hok => by cases hok; rfl)
  exact ⟨h, h.2 ⟨"nb1", DEFAULT_SYSTEM_PROMPT, ⟨"", "pending", false, false⟩, by decide, rfl⟩⟩

/-- Readiness facts about the try-block body: every wait call carries the
300 second budget, and a wait call answered with an exception means the body
records no generation call and ends in an exception. -/
theorem processBody_ready (env : Env) (file outDir : String) (sp j : Option String)
    (afs urls : List String) :
    (∀ nb sid t, Ev.call (CallOp.wait_until_ready nb sid t) ∈ (processBody env file outDir sp j afs urls).1 → t = 300) ∧
    (∀ nb sid t e, Ev.call (CallOp.wait_until_ready nb sid t) ∈ (processBody env file outDir sp j afs urls).1 →
        env.client.wait_until_ready nb sid = Except.error e →
        (∀ ev ∈ (processBody env file outDir sp j afs urls).1, ev.isGenerateCall = false) ∧
        ∃ e2, (processBody env file outDir sp j afs urls).2 = Except.error e2) := by
  rcases processBody_cases env file outDir sp j afs urls with
    ⟨e, -, heq⟩ | ⟨-, hrest⟩
  · rw [heq]
    exact ⟨fun nb sid t h => by simp at h, fun nb sid t e2 h _ => by simp at h⟩
  rcases hrest with ⟨e, -, heq⟩ | ⟨nbObj, -, hrest⟩
  · rw [heq]
    exact ⟨fun nb sid t h => by simp [evsCreate] at h,
           fun nb sid t e2 h _ => by simp [evsCreate] at h⟩
  rcases hrest with ⟨e, -, heq⟩ | ⟨s0, -, hrest⟩
  · rw [heq]
    exact ⟨fun nb sid t h => by simp [evsUpload, evsCreate] at h,
           fun nb sid t e2 h _ => by simp [evsUpload, evsCreate] at h⟩
  have flagsA := addFilesLoop_flags env nbObj.id afs
  have flagsU := urlsLoop_flags env nbObj.id urls
  rcases hrest with ⟨e, -, heq⟩ | ⟨mf, -, hrest⟩
  · rw [heq]
    constructor
    · intro nb sid t h
      rcases List.mem_append.mp h with hFix | hA
      · simp [evsUploaded, evsUpload, evsCreate] at hFix
      · simpa [Ev.waitReadyArg] using (flagsA _ hA).2.2.2.2.2
    · intro nb sid t e2 h _
      rcases List.mem_append.mp h with hFix | hA
      · simp [evsUploaded, evsUpload, evsCreate] at hFix
      · simpa [Ev.waitReadyArg] using (flagsA _ hA).2.2.2.2.2
  rcases hrest with ⟨e, -, heq⟩ | ⟨mu, -, hrest⟩
  · rw [heq]
    constructor
    · intro nb sid t h
      rcases List.mem_append.mp h with h1 | hU
      · rcases List.mem_append.mp h1 with hFix | hA
        · simp [evsUploaded, evsUpload, evsCreate] at hFix
        · simpa [Ev.waitReadyArg] using (flagsA _ hA).2.2.2.2.2
      · simpa [Ev.waitReadyArg] using (flagsU _ hU).2.2.2.2.2
    · intro nb sid t e2 h _
      rcases List.mem_append.mp h with h1 | hU
      · rcases List.mem_append.mp h1 with hFix | hA
        · simp [evsUploaded, evsUpload, evsCreate] at hFix
        · simpa [Ev.waitReadyArg] using (flagsA _ hA).2.2.2.2.2
      · simpa [Ev.waitReadyArg] using (flagsU _ hU).2.2.2.2.2
  have flagsR := readyLoop_flags env nbObj.id ((s0.id, pathName file) :: (mf ++ mu))
  have hready := readyLoop_events env nbObj.id ((s0.id, pathName file) :: (mf ++ mu))
  rcases hrest with ⟨e, hrl, heq⟩ | ⟨hrl, heq⟩
  · rw [heq]
    constructor
    · intro nb sid t h
      rcases List.mem_append.mp h with h1 | hR
      · rcases List.mem_append.mp h1 with h1 | hU
        · rcases List.mem_append.mp h1 with hFix | hA
          · simp [evsUploaded, evsUpload, evsCreate] at hFix
          · simpa [Ev.waitReadyArg] using (flagsA _ hA).2.2.2.2.2
        · simpa [Ev.waitReadyArg] using (flagsU _ hU).2.2.2.2.2
      · rcases hready _ hR with ⟨m, x, hev⟩ | ⟨sid2, hev, -⟩
        · simp at hev
        · simp only [Ev.call.injEq, CallOp.wait_until_ready.injEq] at hev
          exact hev.2.2
    · intro nb sid t e2 h _
      constructor
      · intro ev hev
        rcases List.mem_append.mp hev with h1 | hR
        · rcases List.mem_append.mp h1 with h1 | hU
          · rcases List.mem_append.mp h1 with hFix | hA
            · simp only [evsUploaded, evsUpload, evsCreate, List.cons_append, List.nil_append,
                List.append_assoc, List.mem_cons, List.mem_append, List.not_mem_nil, or_false] at hFix
              rcases hFix with rfl | rfl | rfl | rfl | rfl | rfl | rfl <;> rfl
            · exact (flagsA _ hA).1
          · exact (flagsU _ hU).1
        · exact (flagsR _ hR).1
      · exact ⟨e, rfl⟩
  · rw [heq]
    constructor
    · intro nb sid t h
      rcases List.mem_append.mp h with h1 | hG
      · rcases List.mem_append.mp h1 with h1 | hR
        · rcases List.mem_append.mp h1 with h1 | hU
          · rcases List.mem_append.mp h1 with hFix | hA
            · simp [evsUploaded, evsUpload, evsCreate] at hFix
            · simpa [Ev.waitReadyArg] using (flagsA _ hA).2.2.2.2.2
          · simpa [Ev.waitReadyArg] using (flagsU _ hU).2.2.2.2.2
        · rcases hready _ hR with ⟨m, x, hev⟩ | ⟨sid2, hev, -⟩
          · simp at hev
          · simp only [Ev.call.injEq, CallOp.wait_until_ready.injEq] at hev
            exact hev.2.2
      · simpa [Ev.waitReadyArg] using
          (generatePhase_flags env nbObj.id (resolveInstructions sp) outDir (pathStem file) _ hG).2
    · intro nb sid t e2 h herr
      exfalso
      have hRmem : Ev.call (CallOp.wait_until_ready nb sid t) ∈
          (readyLoop env nbObj.id ((s0.id, pathName file) :: (mf ++ mu))).1 := by
        rcases List.mem_append.mp h with h1 | hG
        · rcases List.mem_append.mp h1 with h1 | hR
          · rcases List.mem_append.mp h1 with h1 | hU
            · rcases List.mem_append.mp h1 with hFix | hA
              · simp [evsUploaded, evsUpload, evsCreate] at hFix
              · exact absurd (flagsA _ hA).2.2.2.2.2 (by simp [Ev.waitReadyArg])
            · exact absurd (flagsU _ hU).2.2.2.2.2 (by simp [Ev.waitReadyArg])
          · exact hR
        · exact absurd
            (generatePhase_flags env nbObj.id (resolveInstructions sp) outDir (pathStem file) _ hG).2
            (by simp [Ev.waitReadyArg])
      rcases hready _ hRmem with ⟨m, x, hev⟩ | ⟨sid2, hev, -⟩
      · simp at hev
      · simp only [Ev.call.injEq, CallOp.wait_until_ready.injEq] at hev
        obtain ⟨hnb, -, -⟩ := hev
        rw [hnb] at hRmem herr
        obtain ⟨e3, he3⟩ := readyLoop_fail_result env nbObj.id _ sid t e2 hRmem herr
        rw [hrl] at he3
        cases he3

/-- The trailing catch event is an error line, of one of the two shapes. -/
theorem catchEvent_is_emitErr (ctx : String) (e : PyExc) :
    ∃ m, catchEvent ctx e = Ev.emitErr m := by
  unfold catchEvent
  split
  · exact ⟨_, rfl⟩
  · exact ⟨_, rfl⟩

/-- C4: every readiness wait a process run records carries the 300 second
budget; a wait answered with an exception aborts the job with a terminal
error line before any generation call; and the wait calls follow the upload
order of the recorded sources (primary file, then the existing additional
files, then the URLs), covering all of them when the readiness phase
finishes normally. -/
theorem c4_readiness_waits (env : Env) (file outDir : String) (sp j : Option String)
    (afs urls : Option (List String)) :
    (∀ nb sid t, Ev.call (CallOp.wait_until_ready nb sid t) ∈ (cmd_process env file outDir sp j afs urls).1 →
        t = 300) ∧
    (∀ nb sid t e, Ev.call (CallOp.wait_until_ready nb sid t) ∈ (cmd_process env file outDir sp j afs urls).1 →
        env.client.wait_until_ready nb sid = Except.error e →
        (∀ ev ∈ (cmd_process env file outDir sp j afs urls).1, ev.isGenerateCall = false) ∧
        ∃ m, (cmd_process env file outDir sp j afs urls).1.getLast? = some (Ev.emitErr m)) ∧
    (∀ (nbObj : Notebook) (s0 : SourceObj) (mf mu : List (String × String)),
        env.client.fromStorage = Except.ok () →
        env.client.create (mkTitle (pathName file) j) = Except.ok nbObj →
        env.client.add_file nbObj.id file = Except.ok s0 →
        (addFilesLoop env nbObj.id (afs.getD [])).2 = Except.ok mf →
        (urlsLoop env nbObj.id (urls.getD [])).2 = Except.ok mu →
        env.existsFile file = true →
        env.mkdirRes outDir = Except.ok () →
        ∃ rest, waitReadySids (cmd_process env file outDir sp j afs urls).1 ++ rest =
            ((s0.id, pathName file) :: (mf ++ mu)).map Prod.fst ∧
          ((readyLoop env nbObj.id ((s0.id, pathName file) :: (mf ++ mu))).2 = Except.ok () →
            rest = [])) := by
  obtain ⟨hr1, hr2⟩ := processBody_ready env file outDir sp j (afs.getD []) (urls.getD [])
  refine ⟨?_, ?_, ?_⟩
  · intro nb sid t h
    rcases cmd_process_cases env file outDir sp j afs urls with ⟨-, heq⟩ | ⟨-, hrest⟩
    · rw [heq] at h
      simp at h
    rcases hrest with ⟨e, -, heq⟩ | ⟨-, hrest⟩
    · rw [heq] at h
      simp at h
    rcases hrest with ⟨evs, e, hpb, heq⟩ | ⟨evs, hpb, heq⟩
    · rw [heq] at h
      rw [hpb] at hr1
      simp only [] at hr1
      rcases List.mem_append.mp h with h1 | hC
      · rcases List.mem_append.mp h1 with hP | hB
        · simp [preEvs] at hP
        · exact hr1 nb sid t hB
      · simp only [List.mem_cons, List.not_mem_nil, or_false] at hC
        have hcf := (catchEvent_flags "Process failed: " e).2.2.2.2.2
        rw [← hC] at hcf
        simpa [Ev.waitReadyArg] using hcf
    · rw [heq] at h
      rw [hpb] at hr1
      simp only [] at hr1
      rcases List.mem_append.mp h with hP | hB
      · simp [preEvs] at hP
      · exact hr1 nb sid t hB
  · intro nb sid t e h herr
    rcases cmd_process_cases env file outDir sp j afs urls with ⟨-, heq⟩ | ⟨-, hrest⟩
    · rw [heq] at h
      simp at h
    rcases hrest with ⟨e2, -, heq⟩ | ⟨-, hrest⟩
    · rw [heq] at h
      simp at h
    rcases hrest with ⟨evs, e2, hpb, heq⟩ | ⟨evs, hpb, heq⟩
    · rw [hpb] at hr2
      simp only [] at hr2
      have hBmem : Ev.call (CallOp.wait_until_ready nb sid t) ∈ evs := by
        rw [heq] at h
        rcases List.mem_append.mp h with h1 | hC
        · rcases List.mem_append.mp h1 with hP | hB
          · simp [preEvs] at hP
          · exact hB
        · simp only [List.mem_cons, List.not_mem_nil, or_false] at hC
          have hcf := (catchEvent_flags "Process failed: " e2).2.2.2.2.2
          rw [← hC] at hcf
          simp [Ev.waitReadyArg] at hcf
      obtain ⟨hnogen, -⟩ := hr2 nb sid t e hBmem herr
      constructor
      · intro ev hev
        rw [heq] at hev
        rcases List.mem_append.mp hev with h1 | hC
        · rcases List.mem_append.mp h1 with hP | hB
          · simp only [preEvs, List.mem_cons, List.not_mem_nil, or_false] at hP
            rcases hP with rfl | rfl <;> rfl
          · exact hnogen ev hB
        · simp only [List.mem_cons, List.not_mem_nil, or_false] at hC
          subst hC
          exact (catchEvent_flags "Process failed: " e2).1
      · rw [heq]
        rw [show preEvs outDir ++ evs ++ [catchEvent "Process failed: " e2] =
              (preEvs outDir ++ evs) ++ [catchEvent "Process failed: " e2] by simp]
        rw [List.getLast?_concat]
        obtain ⟨m, hm⟩ := catchEvent_is_emitErr "Process failed: " e2
        exact ⟨m, by rw [hm]⟩
    · exfalso
      rw [hpb] at hr2
      simp only [] at hr2
      have hBmem : Ev.call (CallOp.wait_until_ready nb sid t) ∈ evs := by
        rw [heq] at h
        rcases List.mem_append.mp h with hP | hB
        · simp [preEvs] at hP
        · exact hB
      obtain ⟨-, e3, he3⟩ := hr2 nb sid t e hBmem herr
      cases he3
  · intro nbObj s0 mf mu hfs hcr haf hal hul hex hmk
    rcases processBody_cases env file outDir sp j (afs.getD []) (urls.getD []) with
      ⟨e, he, -⟩ | ⟨-, hrest⟩
    · rw [hfs] at he
      cases he
    rcases hrest with ⟨e, he, -⟩ | ⟨nbObj2, hnb2, hrest⟩
    · rw [hcr] at he
      cases he
    have hnbeq : nbObj = nbObj2 := by
      rw [hcr] at hnb2
      exact (Except.ok.inj hnb2)
    subst hnbeq
    rcases hrest with ⟨e, he, -⟩ | ⟨s02, hs02, hrest⟩
    · rw [haf] at he
      cases he
    have hs0eq : s0 = s02 := by
      rw [haf] at hs02
      exact (Except.ok.inj hs02)
    subst hs0eq
    rcases hrest with ⟨e, he, -⟩ | ⟨mf2, hmf2, hrest⟩
    · rw [hal] at he
      cases he
    have hmfeq : mf = mf2 := by
      rw [hal] at hmf2
      exact (Except.ok.inj hmf2)
    subst hmfeq
    rcases hrest with ⟨e, he, -⟩ | ⟨mu2, hmu2, hrest⟩
    · rw [hul] at he
      cases he
    have hmueq : mu = mu2 := by
      rw [hul] at hmu2
      exact (Except.ok.inj hmu2)
    subst hmueq
    obtain ⟨tl, htl, htlnil⟩ := readyLoop_sids env nbObj.id ((s0.id, pathName file) :: (mf ++ mu))
    have hsidsA : waitReadySids (addFilesLoop env nbObj.id (afs.getD [])).1 = [] := by
      rw [waitReadySids, List.filterMap_eq_nil_iff]
      intro ev hev
      rw [(addFilesLoop_flags env nbObj.id (afs.getD []) ev hev).2.2.2.2.2]
      rfl
    have hsidsU : waitReadySids (urlsLoop env nbObj.id (urls.getD [])).1 = [] := by
      rw [waitReadySids, List.filterMap_eq_nil_iff]
      intro ev hev
      rw [(urlsLoop_flags env nbObj.id (urls.getD []) ev hev).2.2.2.2.2]
      rfl
    have hsidsG : waitReadySids (generatePhase env nbObj.id (resolveInstructions sp) outDir (pathStem file)).1 = [] := by
      rw [waitReadySids, List.filterMap_eq_nil_iff]
      intro ev hev
      rw [(generatePhase_flags env nbObj.id (resolveInstructions sp) outDir (pathStem file) ev hev).2]
      rfl
    have hsidsFix : waitReadySids (evsUploaded file nbObj.id s0.id j) = [] := by
      simp [waitReadySids, evsUploaded, evsUpload, evsCreate, Ev.waitReadyArg]
    have hsidsPre : waitReadySids (preEvs outDir) = [] := by
      simp [waitReadySids, preEvs, Ev.waitReadyArg]
    rcases cmd_process_cases env file outDir sp j afs urls with ⟨hex2, -⟩ | ⟨-, hrest2⟩
    · rw [hex] at hex2
      cases hex2
    rcases hrest2 with ⟨e, he, -⟩ | ⟨-, hrest2⟩
    · rw [hmk] at he
      cases he
    have hsA : ∀ a b : List Ev, waitReadySids (a ++ b) = waitReadySids a ++ waitReadySids b := by
      intro a b
      simp [waitReadySids]
    have hsC : ∀ (ctx : String) (e : PyExc), waitReadySids [catchEvent ctx e] = [] := by
      intro ctx e
      rw [waitReadySids, List.filterMap_eq_nil_iff]
      intro ev hev
      simp only [List.mem_cons, List.not_mem_nil, or_false] at hev
      subst hev
      rw [(catchEvent_flags ctx e).2.2.2.2.2]
      rfl
    rcases hrest with ⟨e, hrl, hbody⟩ | ⟨hrl, hbody⟩ <;>
      rcases hrest2 with ⟨evs, e2, hpb, heq⟩ | ⟨evs, hpb, heq⟩ <;>
      rw [hbody] at hpb
    · have hevseq := congrArg Prod.fst hpb
      simp only [] at hevseq
      refine ⟨tl, ?_, htlnil⟩
      rw [heq]
      simp only []
      rw [hsA, hsA, hsC, ← hevseq, hsA, hsA, hsA, hsidsPre, hsidsFix, hsidsA, hsidsU]
      simpa using htl
    · exact absurd (congrArg Prod.snd hpb) (by simp)
    · have hevseq := congrArg Prod.fst hpb
      simp only [] at hevseq
      refine ⟨tl, ?_, htlnil⟩
      rw [heq]
      simp only []
      rw [hsA, hsA, hsC, ← hevseq, hsA, hsA, hsA, hsA, hsidsPre, hsidsFix, hsidsA, hsidsU, hsidsG]
      simpa using htl
    · have hevseq := congrArg Prod.fst hpb
      simp only [] at hevseq
      refine ⟨tl, ?_, htlnil⟩
      rw [heq]
      simp only []
      rw [hsA, ← hevseq, hsA, hsA, hsA, hsA, hsidsPre, hsidsFix, hsidsA, hsidsU, hsidsG]
      simpa using htl

/-- Environment whose readiness waits always raise a timeout exception. -/
def envTimeout : Env :=
  { envBase with client :=
    { okClient with wait_until_ready := fun _ _ =>
        Except.error ⟨"PollTimeoutError", "source not ready"⟩ } }

/-- C4 witness: a concrete timed-out run never generates and ends in an
error line, and a concrete healthy run waits on the one recorded source. -/
theorem c4_readiness_waits_witness :
    (∀ nb sid t, Ev.call (CallOp.wait_until_ready nb sid t) ∈
        (cmd_process envTimeout "in/doc.txt" "out" none none none none).1 → t = 300) ∧
    ((∀ ev ∈ (cmd_process envTimeout "in/doc.txt" "out" none none none none).1,
        ev.isGenerateCall = false) ∧
     ∃ m, (cmd_process envTimeout "in/doc.txt" "out" none none none none).1.getLast? =
        some (Ev.emitErr m)) ∧
    (∃ rest, waitReadySids (cmd_process envBase "in/doc.txt" "out" none none none none).1 ++ rest =
        ["src-doc.txt"] ∧
      ((readyLoop envBase "nb1" [("src-doc.txt", pathName "in/doc.txt")]).2 = Except.ok () →
        rest = [])) := by
  refine ⟨(c4_readiness_waits envTimeout "in/doc.txt" "out" none none none none).1, ?_, ?_⟩
  · exact (c4_readiness_waits envTimeout "in/doc.txt" "out" none none none none).2.1
      "nb1" "src-doc.txt" 300 ⟨"PollTimeoutError", "source not ready"⟩ (by decide) rfl
  · have h := (c4_readiness_waits envBase "in/doc.txt" "out" none none none none).2.2
      ⟨"nb1", mkTitle (pathName "in/doc.txt") none⟩ ⟨"src-doc.txt", "doc.txt"⟩ [] []
      rfl rfl rfl rfl rfl (by decide) rfl
    simpa using h

/-- Completion facts lifted to the try-block body: a completion wait that
was recorded and answered with a terminal status is followed by a download
call, with the best-effort note when the status is failure-flagged. -/
theorem processBody_completion (env : Env) (file outDir : String) (sp j : Option String)
    (afs urls : List String) (nb tid : String) (st : GenStatus)
    (hmem : Ev.call (CallOp.wait_for_completion nb tid 1800) ∈ (processBody env file outDir sp j afs urls).1)
    (hok : env.client.wait_for_completion nb tid = Except.ok st) :
    (∃ dest, Ev.call (CallOp.download_slide_deck nb dest none) ∈ (processBody env file outDir sp j afs urls).1) ∧
    (st.is_failed = true →
      Ev.emit "progress" ("Generation status reports failed (status=" ++ st.status ++ "), attempting download anyway...") {}
        ∈ (processBody env file outDir sp j afs urls).1) := by
  rcases processBody_cases env file outDir sp j afs urls with
    ⟨e, -, heq⟩ | ⟨-, hrest⟩
  · rw [heq] at hmem
    simp at hmem
  rcases hrest with ⟨e, -, heq⟩ | ⟨nbObj, -, hrest⟩
  · rw [heq] at hmem
    simp [evsCreate] at hmem
  rcases hrest with ⟨e, -, heq⟩ | ⟨s0, -, hrest⟩
  · rw [heq] at hmem
    simp [evsUpload, evsCreate] at hmem
  have flagsA := addFilesLoop_flags env nbObj.id afs
  have flagsU := urlsLoop_flags env nbObj.id urls
  rcases hrest with ⟨e, -, heq⟩ | ⟨mf, -, hrest⟩
  · rw [heq] at hmem
    rcases List.mem_append.mp hmem with hFix | hA
    · simp [evsUploaded, evsUpload, evsCreate] at hFix
    · simpa [Ev.isWaitCompletionCall] using (flagsA _ hA).2.1
  rcases hrest with ⟨e, -, heq⟩ | ⟨mu, -, hrest⟩
  · rw [heq] at hmem
    rcases List.mem_append.mp hmem with h1 | hU
    · rcases List.mem_append.mp h1 with hFix | hA
      · simp [evsUploaded, evsUpload, evsCreate] at hFix
      · simpa [Ev.isWaitCompletionCall] using (flagsA _ hA).2.1
    · simpa [Ev.isWaitCompletionCall] using (flagsU _ hU).2.1
  have flagsR := readyLoop_flags env nbObj.id ((s0.id, pathName file) :: (mf ++ mu))
  rcases hrest with ⟨e, -, heq⟩ | ⟨-, heq⟩
  · rw [heq] at hmem
    rcases List.mem_append.mp hmem with h1 | hR
    · rcases List.mem_append.mp h1 with h1 | hU
      · rcases List.mem_append.mp h1 with hFix | hA
        · simp [evsUploaded, evsUpload, evsCreate] at hFix
        · simpa [Ev.isWaitCompletionCall] using (flagsA _ hA).2.1
      · simpa [Ev.isWaitCompletionCall] using (flagsU _ hU).2.1
    · simpa [Ev.isWaitCompletionCall] using (flagsR _ hR).2.1
  · rw [heq] at hmem ⊢
    have hGmem : Ev.call (CallOp.wait_for_completion nb tid 1800) ∈
        (generatePhase env nbObj.id (resolveInstructions sp) outDir (pathStem file)).1 := by
      rcases List.mem_append.mp hmem with h1 | hG
      · exfalso
        rcases List.mem_append.mp h1 with h1 | hR
        · rcases List.mem_append.mp h1 with h1 | hU
          · rcases List.mem_append.mp h1 with hFix | hA
            · simp [evsUploaded, evsUpload, evsCreate] at hFix
            · simpa [Ev.isWaitCompletionCall] using (flagsA _ hA).2.1
          · simpa [Ev.isWaitCompletionCall] using (flagsU _ hU).2.1
        · simpa [Ev.isWaitCompletionCall] using (flagsR _ hR).2.1
      · exact hG
    have hnb : nb = nbObj.id := by
      rcases generatePhase_events env nbObj.id (resolveInstructions sp) outDir (pathStem file) _ hGmem with
        ⟨s2, m, x, hev⟩ | hev | hev | ⟨tid2, hev⟩ | ⟨dest, hev⟩
      · simp at hev
      · simp at hev
      · simp at hev
      · simp only [Ev.call.injEq, CallOp.wait_for_completion.injEq] at hev
        exact hev.1
      · simp at hev
    subst hnb
    obtain ⟨hdl, hnote⟩ := generatePhase_completion env nbObj.id (resolveInstructions sp)
      outDir (pathStem file) tid st hGmem hok
    constructor
    · obtain ⟨dest, hdest⟩ := hdl
      exact ⟨dest, List.mem_append.mpr (Or.inr hdest)⟩
    · intro hfail
      exact List.mem_append.mpr (Or.inr (hnote hfail))

/-- C7: a failure-flagged terminal generation status does not abort the job:
whenever the completion wait was called and returned a terminal status, the
download call follows in the same run, and the failure-flagged case
additionally emits the best-effort progress note. -/
theorem c7_failed_status_still_downloads (env : Env) (file outDir : String) (sp j : Option String)
    (afs urls : Option (List String)) (nb tid : String) (st : GenStatus)
    (hmem : Ev.call (CallOp.wait_for_completion nb tid 1800) ∈ (cmd_process env file outDir sp j afs urls).1)
    (hok : env.client.wait_for_completion nb tid = Except.ok st) :
    (∃ dest, Ev.call (CallOp.download_slide_deck nb dest none) ∈ (cmd_process env file outDir sp j afs urls).1) ∧
    (st.is_failed = true →
      Ev.emit "progress" ("Generation status reports failed (status=" ++ st.status ++ "), attempting download anyway...") {}
        ∈ (cmd_process env file outDir sp j afs urls).1) := by
  rcases cmd_process_cases env file outDir sp j afs urls with ⟨-, heq⟩ | ⟨-, hrest⟩
  · rw [heq] at hmem
    simp at hmem
  rcases hrest with ⟨e, -, heq⟩ | ⟨-, hrest⟩
  · rw [heq] at hmem
    simp at hmem
  rcases hrest with ⟨evs, e, hpb, heq⟩ | ⟨evs, hpb, heq⟩
  · rw [heq] at hmem ⊢
    have hB : Ev.call (CallOp.wait_for_completion nb tid 1800) ∈ evs := by
      rcases List.mem_append.mp hmem with h1 | hC
      · rcases List.mem_append.mp h1 with hP | hB
        · simp [preEvs] at hP
        · exact hB
      · simp only [List.mem_cons, List.not_mem_nil, or_false] at hC
        have hcf := (catchEvent_flags "Process failed: " e).2.1
        rw [← hC] at hcf
        simp [Ev.isWaitCompletionCall] at hcf
    have hbody := processBody_completion env file outDir sp j (afs.getD []) (urls.getD []) nb tid st
    rw [hpb] at hbody
    simp only [] at hbody
    obtain ⟨⟨dest, hdest⟩, hnote⟩ := hbody hB hok
    constructor
    · exact ⟨dest, List.mem_append.mpr (Or.inl (List.mem_append.mpr (Or.inr hdest)))⟩
    · intro hfail
      exact List.mem_append.mpr (Or.inl (List.mem_append.mpr (Or.inr (hnote hfail))))
  · rw [heq] at hmem ⊢
    have hB : Ev.call (CallOp.wait_for_completion nb tid 1800) ∈ evs := by
      rcases List.mem_append.mp hmem with hP | hB
      · simp [preEvs] at hP
      · exact hB
    have hbody := processBody_completion env file outDir sp j (afs.getD []) (urls.getD []) nb tid st
    rw [hpb] at hbody
    simp only [] at hbody
    obtain ⟨⟨dest, hdest⟩, hnote⟩ := hbody hB hok
    constructor
    · exact ⟨dest, List.mem_append.mpr (Or.inr hdest)⟩
    · intro hfail
      exact List.mem_append.mpr (Or.inr (hnote hfail))

/-- Environment whose completion wait reports a failure-flagged terminal
status. -/
def envFailedGen : Env :=
  { envBase with client :=
    { okClient with wait_for_completion := fun _ t => Except.ok ⟨t, "failed", false, true⟩ } }

/-- C7 witness: a concrete run with a failure-flagged status still records
the download call and the best-effort note. -/
theorem c7_failed_status_still_downloads_witness :
    (∃ dest, Ev.call (CallOp.download_slide_deck "nb1" dest none) ∈
        (cmd_process envFailedGen "in/doc.txt" "out" none none none none).1) ∧
    ((⟨"task1", "failed", false, true⟩ : GenStatus).is_failed = true →
      Ev.emit "progress" ("Generation status reports failed (status=" ++ "failed" ++ "), attempting download anyway...") {}
        ∈ (cmd_process envFailedGen "in/doc.txt" "out" none none none none).1) :=
  c7_failed_status_still_downloads envFailedGen "in/doc.txt" "out" none none none none
    "nb1" "task1" ⟨"task1", "failed", false, true⟩ (by decide) rfl

/-- The status fields a done event reports, when it is a done event. -/
def statusFields : Ev → Option (Option String × Option Bool × Option Bool)
  | Ev.emit "done" _ x => some (x.generation_status, x.is_complete, x.is_failed)
  | _ => none

theorem catchEvent_isPoll (ctx : String) (e : PyExc) :
    (catchEvent ctx e).isPollCall = false := by
  unfold catchEvent
  split <;> rfl

theorem catchEvent_statusFields (ctx : String) (e : PyExc) :
    statusFields (catchEvent ctx e) = none := by
  unfold catchEvent
  split <;> rfl

/-- C8: cmd_check_status performs at most one status poll, exactly one when
the client connection succeeds, in which case the terminal done event copies
the polled status string and flags; consequently two invocations against
environments answering the poll identically report identical status fields. -/
theorem c8_check_status_single_poll :
    (∀ (env : Env) (nb task : String),
        (cmd_check_status env nb task).1.countP (fun ev => ev.isPollCall) ≤ 1) ∧
    (∀ (env : Env) (nb task : String) (st : GenStatus),
        env.client.fromStorage = Except.ok () →
        env.client.poll_status nb task = Except.ok st →
        cmd_check_status env nb task =
          ([Ev.emit "progress" "Checking generation status..." {},
            Ev.call CallOp.fromStorage, Ev.call (CallOp.poll_status nb task),
            Ev.emit "done" ("Status: " ++ st.status)
              {generation_status := some st.status, is_complete := some st.is_complete,
               is_failed := some st.is_failed, task_id := some task}], Outcome.normal) ∧
        (cmd_check_status env nb task).1.countP (fun ev => ev.isPollCall) = 1) ∧
    (∀ (env env2 : Env) (nb task : String),
        env.client.fromStorage = Except.ok () →
        env2.client.fromStorage = Except.ok () →
        env.client.poll_status nb task = env2.client.poll_status nb task →
        (cmd_check_status env nb task).1.filterMap statusFields =
          (cmd_check_status env2 nb task).1.filterMap statusFields) := by
  have hshape : ∀ (env : Env) (nb task : String),
      env.client.fromStorage = Except.ok () →
      (∃ e, env.client.poll_status nb task = Except.error e ∧
        cmd_check_status env nb task =
          ([Ev.emit "progress" "Checking generation status..." {},
            Ev.call CallOp.fromStorage, Ev.call (CallOp.poll_status nb task),
            catchEvent "Check status failed: " e], Outcome.normal)) ∨
      (∃ st, env.client.poll_status nb task = Except.ok st ∧
        cmd_check_status env nb task =
          ([Ev.emit "progress" "Checking generation status..." {},
            Ev.call CallOp.fromStorage, Ev.call (CallOp.poll_status nb task),
            Ev.emit "done" ("Status: " ++ st.status)
              {generation_status := some st.status, is_complete := some st.is_complete,
               is_failed := some st.is_failed, task_id := some task}], Outcome.normal)) := by
    intro env nb task hfs
    unfold cmd_check_status
    rw [hfs]
    try simp only []
    cases hp : env.client.poll_status nb task with
    | error e => exact Or.inl ⟨e, rfl, rfl⟩
    | ok st => exact Or.inr ⟨st, rfl, rfl⟩
  refine ⟨?_, ?_, ?_⟩
  · intro env nb task
    cases hfs : env.client.fromStorage with
    | error e =>
      have : cmd_check_status env nb task =
          ([Ev.emit "progress" "Checking generation status..." {},
            Ev.call CallOp.fromStorage, catchEvent "Check status failed: " e], Outcome.normal) := by
        unfold cmd_check_status
        rw [hfs]
      rw [this]
      rcases catchEvent_is_emitErr "Check status failed: " e with ⟨m, hm⟩
      rw [hm]
      simp [List.countP_cons, Ev.isPollCall]
    | ok u =>
      cases u
      rcases hshape env nb task hfs with ⟨e, -, heq⟩ | ⟨st, -, heq⟩ <;> rw [heq]
      · rcases catchEvent_is_emitErr "Check status failed: " e with ⟨m, hm⟩
        rw [hm]
        simp [List.countP_cons, Ev.isPollCall]
      · simp [List.countP_cons, Ev.isPollCall]
  · intro env nb task st hfs hp
    rcases hshape env nb task hfs with ⟨e, hpe, -⟩ | ⟨st2, hp2, heq⟩
    · rw [hp] at hpe
      cases hpe
    · rw [hp] at hp2
      have hst : st2 = st := (Except.ok.inj hp2).symm
      subst hst
      refine ⟨heq, ?_⟩
      rw [heq]
      simp [List.countP_cons, Ev.isPollCall]
  · intro env env2 nb task hfs hfs2 hpeq
    rcases hshape env nb task hfs with ⟨e, hpe, heq⟩ | ⟨st, hpe, heq⟩ <;>
      rcases hshape env2 nb task hfs2 with ⟨e2, hpe2, heq2⟩ | ⟨st2, hpe2, heq2⟩ <;>
      rw [heq, heq2] <;>
      rw [hpe, hpe2] at hpeq
    · rcases catchEvent_is_emitErr "Check status failed: " e with ⟨m, hm⟩
      rcases catchEvent_is_emitErr "Check status failed: " e2 with ⟨m2, hm2⟩
      rw [hm, hm2]
      simp [statusFields]
    · cases hpeq
    · cases hpeq
    · have hst : st = st2 := Except.ok.inj hpeq
      subst hst
      simp [statusFields]

/-- C8 witness: a concrete check-status run against the healthy client. -/
theorem c8_check_status_single_poll_witness :
    (cmd_check_status envBase "nbZ" "taskZ").1.countP (fun ev => ev.isPollCall) ≤ 1 ∧
    (cmd_check_status envBase "nbZ" "taskZ" =
      ([Ev.emit "progress" "Checking generation status..." {},
        Ev.call CallOp.fromStorage, Ev.call (CallOp.poll_status "nbZ" "taskZ"),
        Ev.emit "done" ("Status: " ++ "processing")
          {generation_status := some "processing", is_complete := some false,
           is_failed := some false, task_id := some "taskZ"}], Outcome.normal) ∧
     (cmd_check_status envBase "nbZ" "taskZ").1.countP (fun ev => ev.isPollCall) = 1) ∧
    (cmd_check_status envBase "nbZ" "taskZ").1.filterMap statusFields =
      (cmd_check_status envBase "nbZ" "taskZ").1.filterMap statusFields :=
  ⟨c8_check_status_single_poll.1 envBase "nbZ" "taskZ",
   c8_check_status_single_poll.2.1 envBase "nbZ" "taskZ" ⟨"task1", "processing", false, false⟩ rfl rfl,
   c8_check_status_single_poll.2.2 envBase envBase "nbZ" "taskZ" rfl rfl rfl⟩

/-! ### Flag parsing facts -/

theorem flagIdx_append_last (flag : String) :
    ∀ l : List String, flag ∉ l → flagIdx flag (l ++ [flag]) = some l.length := by
  intro l
  induction l with
  | nil =>
    intro _
    simp [flagIdx]
  | cons a rest ih =>
    intro hnot
    have ha : (a == flag) = false := by
      simp only [List.mem_cons, not_or] at hnot
      simp [hnot.1]
      intro hcontra
      exact hnot.1 hcontra.symm
    simp only [List.cons_append, flagIdx, ha, if_false, List.append_eq]
    rw [ih (fun hm => hnot (List.mem_cons_of_mem a hm))]
    rfl

theorem flagIdx_first (flag : String) :
    ∀ (l1 : List String) (v : String) (l2 : List String), flag ∉ l1 →
      flagIdx flag (l1 ++ flag :: v :: l2) = some l1.length := by
  intro l1
  induction l1 with
  | nil =>
    intro v l2 _
    simp [flagIdx]
  | cons a rest ih =>
    intro v l2 hnot
    have ha : (a == flag) = false := by
      simp only [List.mem_cons, not_or] at hnot
      simp
      intro hcontra
      exact hnot.1 hcontra.symm
    simp only [List.cons_append, flagIdx, ha, if_false, List.append_eq]
    rw [ih v l2 (fun hm => hnot (List.mem_cons_of_mem a hm))]
    rfl

/-- A recognized flag standing last on the command line, with no value after
it, is silently parsed as absent. -/
theorem flagValue_trailing (flag : String) (l : List String) (h : flag ∉ l) :
    flagValue flag (l ++ [flag]) = none := by
  unfold flagValue
  rw [flagIdx_append_last flag l h]
  apply List.getElem?_eq_none
  simp

/-- Only the first occurrence of a flag is consulted: whatever follows later
on the command line, the value after the first occurrence is used. -/
theorem flagValue_first (flag : String) (l1 : List String) (v : String) (l2 : List String)
    (h : flag ∉ l1) :
    flagValue flag (l1 ++ flag :: v :: l2) = some v := by
  unfold flagValue
  rw [flagIdx_first flag l1 v l2 h]
  simp only []
  rw [List.getElem?_append_right (by omega)]
  simp

/-- A repeatable flag standing last contributes nothing. -/
theorem flagValues_trailing (flag : String) :
    ∀ l : List String, flag ∉ l → flagValues flag (l ++ [flag]) = [] := by
  intro l
  induction l with
  | nil =>
    intro _
    rfl
  | cons a rest ih =>
    intro hnot
    have ha : (a == flag) = false := by
      simp only [List.mem_cons, not_or] at hnot
      simp
      intro hcontra
      exact hnot.1 hcontra.symm
    cases rest with
    | nil =>
      simp only [List.cons_append, List.nil_append, flagValues, ha, if_false]
      rfl
    | cons b rest2 =>
      have hr := ih (fun hm => hnot (List.mem_cons_of_mem a hm))
      simp only [List.cons_append, flagValues, ha, if_false, List.append_eq] at hr ⊢
      exact hr

/-- C10: a recognized single-value flag standing last on the command line is
silently treated as absent (no usage error), the dispatcher still invokes
the entry point, and when a non-repeatable flag appears more than once only
the value after its first occurrence is used; a repeatable flag standing
last likewise contributes nothing. -/
theorem c10_flag_parsing :
    (∀ (flag : String) (l : List String), flag ∉ l →
        flagValue flag (l ++ [flag]) = none) ∧
    (∀ (flag : String) (l1 : List String) (v : String) (l2 : List String), flag ∉ l1 →
        flagValue flag (l1 ++ flag :: v :: l2) = some v) ∧
    (∀ (flag : String) (l : List String), flag ∉ l →
        flagValues flag (l ++ [flag]) = []) ∧
    (∀ (env : Env) (prog f o : String) (rest : List String),
        "--job-id" ∉ prog :: "process" :: f :: o :: rest →
        mainRun env ((prog :: "process" :: f :: o :: rest) ++ ["--job-id"]) =
          cmd_process env f o
            (flagValue "--system-prompt" ((prog :: "process" :: f :: o :: rest) ++ ["--job-id"]))
            none
            (if (flagValues "--source-file" ((prog :: "process" :: f :: o :: rest) ++ ["--job-id"])).isEmpty
              then none
              else some (flagValues "--source-file" ((prog :: "process" :: f :: o :: rest) ++ ["--job-id"])))
            (if (flagValues "--source-url" ((prog :: "process" :: f :: o :: rest) ++ ["--job-id"])).isEmpty
              then none
              else some (flagValues "--source-url" ((prog :: "process" :: f :: o :: rest) ++ ["--job-id"])))) := by
  refine ⟨flagValue_trailing, flagValue_first, flagValues_trailing, ?_⟩
  intro env prog f o rest hnot
  have hmain : mainRun env ((prog :: "process" :: f :: o :: rest) ++ ["--job-id"]) =
      cmd_process env f o
        (flagValue "--system-prompt" ((prog :: "process" :: f :: o :: rest) ++ ["--job-id"]))
        (flagValue "--job-id" ((prog :: "process" :: f :: o :: rest) ++ ["--job-id"]))
        (if (flagValues "--source-file" ((prog :: "process" :: f :: o :: rest) ++ ["--job-id"])).isEmpty
          then none
          else some (flagValues "--source-file" ((prog :: "process" :: f :: o :: rest) ++ ["--job-id"])))
        (if (flagValues "--source-url" ((prog :: "process" :: f :: o :: rest) ++ ["--job-id"])).isEmpty
          then none
          else some (flagValues "--source-url" ((prog :: "process" :: f :: o :: rest) ++ ["--job-id"]))) := rfl
  rw [hmain, flagValue_trailing "--job-id" _ hnot]

/-- C10 witness: concrete command lines exercising each parsing fact. -/
theorem c10_flag_parsing_witness :
    flagValue "--job-id" (["p", "process", "a.txt", "out"] ++ ["--job-id"]) = none ∧
    flagValue "--name" (["p", "download", "nb"] ++ "--name" :: "first" :: ["--name", "second"]) = some "first" ∧
    flagValues "--source-file" (["p", "process", "a.txt", "out"] ++ ["--source-file"]) = [] ∧
    mainRun envBase ((["p"] ++ ["process", "in/doc.txt", "out"]) ++ ["--job-id"]) =
      cmd_process envBase "in/doc.txt" "out"
        (flagValue "--system-prompt" ((["p", "process", "in/doc.txt", "out"] : List String) ++ ["--job-id"]))
        none
        (if (flagValues "--source-file" ((["p", "process", "in/doc.txt", "out"] : List String) ++ ["--job-id"])).isEmpty
          then none
          else some (flagValues "--source-file" ((["p", "process", "in/doc.txt", "out"] : List String) ++ ["--job-id"])))
        (if (flagValues "--source-url" ((["p", "process", "in/doc.txt", "out"] : List String) ++ ["--job-id"])).isEmpty
          then none
          else some (flagValues "--source-url" ((["p", "process", "in/doc.txt", "out"] : List String) ++ ["--job-id"]))) :=
  ⟨c10_flag_parsing.1 "--job-id" ["p", "process", "a.txt", "out"] (by decide),
   c10_flag_parsing.2.1 "--name" ["p", "download", "nb"] "first" ["--name", "second"] (by decide),
   c10_flag_parsing.2.2.1 "--source-file" ["p", "process", "a.txt", "out"] (by decide),
   c10_flag_parsing.2.2.2 envBase "p" "in/doc.txt" "out" [] (by decide)⟩

/-- A generation phase that ends normally ends with a terminal event: the
final done line, or the rejection error line. -/
theorem generatePhase_ok_last (env : Env) (nb ins outDir stem : String)
    (h : (generatePhase env nb ins outDir stem).2 = Except.ok ()) :
    ∃ evs0 ev, (generatePhase env nb ins outDir stem).1 = evs0 ++ [ev] ∧ ev.isTerminalEv = true := by
  unfold generatePhase at h ⊢
  cases hg : env.client.generate_slide_deck nb ins with
  | error e =>
    try rw [hg] at h
    simp at h
  | ok st =>
    try rw [hg] at h
    try rw [hg]
    try simp only [] at h
    try simp only []
    by_cases htid : (st.task_id == "") = true
    · rw [if_pos htid]
      exact ⟨_, Ev.emitErr genRejectedMsg, rfl, rfl⟩
    · rw [if_neg htid] at h ⊢
      cases hw : env.client.wait_for_completion nb st.task_id with
      | error e =>
        try rw [hw] at h
        simp at h
      | ok finalSt =>
        try rw [hw] at h
        try rw [hw]
        try simp only [] at h
        try simp only []
        cases hd : env.client.download_slide_deck nb
            (unique_path env.files (mkPyPath outDir (stem ++ "_slides.pdf"))).toStr none with
        | error e =>
          try rw [hd] at h
          simp at h
        | ok dp =>
          try rw [hd]
          refine ⟨_, Ev.emit "done" ("PDF downloaded: " ++ dp)
            {output_path := some dp, notebook_id := some (some nb)}, rfl, rfl⟩

/-- A try-block body that ends normally ends with a terminal event. -/
theorem processBody_ok_last (env : Env) (file outDir : String) (sp j : Option String)
    (afs urls : List String)
    (h : (processBody env file outDir sp j afs urls).2 = Except.ok ()) :
    ∃ evs0 ev, (processBody env file outDir sp j afs urls).1 = evs0 ++ [ev] ∧ ev.isTerminalEv = true := by
  rcases processBody_cases env file outDir sp j afs urls with
    ⟨e, -, heq⟩ | ⟨-, hrest⟩
  · rw [heq] at h
    simp at h
  rcases hrest with ⟨e, -, heq⟩ | ⟨nbObj, -, hrest⟩
  · rw [heq] at h
    simp at h
  rcases hrest with ⟨e, -, heq⟩ | ⟨s0, -, hrest⟩
  · rw [heq] at h
    simp at h
  rcases hrest with ⟨e, -, heq⟩ | ⟨mf, -, hrest⟩
  · rw [heq] at h
    simp at h
  rcases hrest with ⟨e, -, heq⟩ | ⟨mu, -, hrest⟩
  · rw [heq] at h
    simp at h
  rcases hrest with ⟨e, -, heq⟩ | ⟨-, heq⟩
  · rw [heq] at h
    simp at h
  · rw [heq] at h ⊢
    simp only [] at h
    obtain ⟨g0, ev, hg, hterm⟩ := generatePhase_ok_last env nbObj.id (resolveInstructions sp)
      outDir (pathStem file) h
    refine ⟨evsUploaded file nbObj.id s0.id j ++ (addFilesLoop env nbObj.id afs).1 ++
      (urlsLoop env nbObj.id urls).1 ++
      (readyLoop env nbObj.id ((s0.id, pathName file) :: (mf ++ mu))).1 ++ g0, ev, ?_, hterm⟩
    rw [hg]
    simp [List.append_assoc]

/-- A notebook scan that ends normally ends with a done event. -/
theorem findLoop_ok_last (env : Env) (jid : String) :
    ∀ nbs, (findLoop env jid nbs).2 = Except.ok () →
      ∃ evs0 m x, (findLoop env jid nbs).1 = evs0 ++ [Ev.emit "done" m x] := by
  intro nbs
  induction nbs with
  | nil =>
    intro _
    exact ⟨[], _, _, rfl⟩
  | cons n rest ih =>
    intro h
    unfold findLoop at h ⊢
    by_cases hin : strIn jid n.title = true
    · rw [if_pos hin] at h ⊢
      cases hla : env.client.listArts n.id with
      | error e =>
        try rw [hla] at h
        simp at h
      | ok arts =>
        try rw [hla] at h
        try rw [hla]
        try simp only [] at h
        try simp only []
        cases hfind : arts.find? artifactIsSlide with
        | some a =>
          try rw [hfind]
          exact ⟨_, _, _, rfl⟩
        | none =>
          try rw [hfind]
          exact ⟨_, _, _, rfl⟩
    · rw [if_neg hin] at h ⊢
      exact ih h

theorem cmd_process_terminal (env : Env) (file outDir : String) (sp j : Option String)
    (afs urls : Option (List String)) (hmk : ∀ d, ∃ u, env.mkdirRes d = Except.ok u) :
    (cmd_process env file outDir sp j afs urls).2 = Outcome.normal ∧
    ∃ evs0 ev, (cmd_process env file outDir sp j afs urls).1 = evs0 ++ [ev] ∧ ev.isTerminalEv = true := by
  rcases cmd_process_cases env file outDir sp j afs urls with ⟨-, heq⟩ | ⟨-, hrest⟩
  · rw [heq]
    exact ⟨rfl, [], Ev.emitErr ("File not found: " ++ file), rfl, rfl⟩
  rcases hrest with ⟨e, hmkd, -⟩ | ⟨-, hrest⟩
  · obtain ⟨u, hu⟩ := hmk outDir
    rw [hu] at hmkd
    cases hmkd
  rcases hrest with ⟨evs, e, hpb, heq⟩ | ⟨evs, hpb, heq⟩
  · rw [heq]
    obtain ⟨m, hm⟩ := catchEvent_is_emitErr "Process failed: " e
    refine ⟨rfl, preEvs outDir ++ evs, catchEvent "Process failed: " e, by simp, ?_⟩
    rw [hm]
    rfl
  · obtain ⟨evs0, ev, hevs, hterm⟩ := processBody_ok_last env file outDir sp j
      (afs.getD []) (urls.getD []) (by rw [hpb])
    rw [hpb] at hevs
    simp only [] at hevs
    rw [heq]
    refine ⟨rfl, preEvs outDir ++ evs0, ev, ?_, hterm⟩
    rw [hevs]
    simp [List.append_assoc]

/-- A one-event trace ends in that event. -/
theorem lastOf1 (a : Ev) (h : a.isTerminalEv = true) :
    ∃ evs0 ev, [a] = evs0 ++ [ev] ∧ ev.isTerminalEv = true := ⟨[], a, rfl, h⟩

/-- A three-event trace ends in its last event. -/
theorem lastOf3 (a b c : Ev) (h : c.isTerminalEv = true) :
    ∃ evs0 ev, [a, b, c] = evs0 ++ [ev] ∧ ev.isTerminalEv = true := ⟨[a, b], c, by simp, h⟩

/-- A four-event trace ends in its last event. -/
theorem lastOf4 (a b c d : Ev) (h : d.isTerminalEv = true) :
    ∃ evs0 ev, [a, b, c, d] = evs0 ++ [ev] ∧ ev.isTerminalEv = true := ⟨[a, b, c], d, by simp, h⟩

/-- A five-event trace ends in its last event. -/
theorem lastOf5 (a b c d e : Ev) (h : e.isTerminalEv = true) :
    ∃ evs0 ev, [a, b, c, d, e] = evs0 ++ [ev] ∧ ev.isTerminalEv = true :=
  ⟨[a, b, c, d], e, by simp, h⟩

/-- A trace of the form l concatenated with a final event ends in that event. -/
theorem lastOfApp (l : List Ev) (x : Ev) (h : x.isTerminalEv = true) :
    ∃ evs0 ev, l ++ [x] = evs0 ++ [ev] ∧ ev.isTerminalEv = true := ⟨l, x, rfl, h⟩

theorem cmd_find_notebook_terminal (env : Env) (jid : String) :
    (cmd_find_notebook env jid).2 = Outcome.normal ∧
    ∃ evs0 ev, (cmd_find_notebook env jid).1 = evs0 ++ [ev] ∧ ev.isTerminalEv = true := by
  unfold cmd_find_notebook
  cases hfs : env.client.fromStorage with
  | error e =>
    obtain ⟨m, hm⟩ := catchEvent_is_emitErr "Find notebook failed: " e
    refine ⟨rfl, [Ev.emit "progress" ("Searching for notebook with job ID: " ++ jid) {},
      Ev.call CallOp.fromStorage], catchEvent "Find notebook failed: " e, by simp, ?_⟩
    rw [hm]
    rfl
  | ok u =>
    cases u
    try simp only []
    cases hln : env.client.listNb with
    | error e =>
      try rw [hln]
      obtain ⟨m, hm⟩ := catchEvent_is_emitErr "Find notebook failed: " e
      refine ⟨rfl, [Ev.emit "progress" ("Searching for notebook with job ID: " ++ jid) {},
        Ev.call CallOp.fromStorage, Ev.call CallOp.listNb],
        catchEvent "Find notebook failed: " e, by simp, ?_⟩
      rw [hm]
      rfl
    | ok nbs =>
      try rw [hln]
      try simp only []
      rcases hfl : (findLoop env jid nbs).2 with e | v
      · obtain ⟨m, hm⟩ := catchEvent_is_emitErr "Find notebook failed: " e
        refine ⟨rfl, [Ev.emit "progress" ("Searching for notebook with job ID: " ++ jid) {},
          Ev.call CallOp.fromStorage, Ev.call CallOp.listNb] ++ (findLoop env jid nbs).1,
          catchEvent "Find notebook failed: " e, by simp, ?_⟩
        rw [hm]
        rfl
      · cases v
        obtain ⟨evs0, m, x, hevs⟩ := findLoop_ok_last env jid nbs hfl
        refine ⟨rfl, [Ev.emit "progress" ("Searching for notebook with job ID: " ++ jid) {},
          Ev.call CallOp.fromStorage, Ev.call CallOp.listNb] ++ evs0,
          Ev.emit "done" m x, ?_, rfl⟩
        rw [hevs]
        simp [List.append_assoc]

theorem cmd_check_status_terminal (env : Env) (nb task : String) :
    (cmd_check_status env nb task).2 = Outcome.normal ∧
    ∃ evs0 ev, (cmd_check_status env nb task).1 = evs0 ++ [ev] ∧ ev.isTerminalEv = true := by
  unfold cmd_check_status
  cases hfs : env.client.fromStorage with
  | error e =>
    obtain ⟨m, hm⟩ := catchEvent_is_emitErr "Check status failed: " e
    refine ⟨rfl, [Ev.emit "progress" "Checking generation status..." {},
      Ev.call CallOp.fromStorage], catchEvent "Check status failed: " e, by simp, ?_⟩
    rw [hm]
    rfl
  | ok u =>
    cases u
    try simp only []
    cases hp : env.client.poll_status nb task with
    | error e =>
      try rw [hp]
      obtain ⟨m, hm⟩ := catchEvent_is_emitErr "Check status failed: " e
      refine ⟨rfl, [Ev.emit "progress" "Checking generation status..." {},
        Ev.call CallOp.fromStorage, Ev.call (CallOp.poll_status nb task)],
        catchEvent "Check status failed: " e, by simp, ?_⟩
      rw [hm]
      rfl
    | ok st =>
      try rw [hp]
      exact ⟨rfl, _, Ev.emit "done" ("Status: " ++ st.status)
        {generation_status := some st.status, is_complete := some st.is_complete,
         is_failed := some st.is_failed, task_id := some task}, rfl, rfl⟩

theorem cmd_download_terminal (env : Env) (nb outDir : String) (nm artifactId : Option String)
    (hmk : ∀ d, ∃ u, env.mkdirRes d = Except.ok u) :
    (cmd_download env nb outDir nm artifactId).2 = Outcome.normal ∧
    ∃ evs0 ev, (cmd_download env nb outDir nm artifactId).1 = evs0 ++ [ev] ∧ ev.isTerminalEv = true := by
  unfold cmd_download
  obtain ⟨u, hu⟩ := hmk outDir
  cases u
  rw [hu]
  try simp only []
  cases hfs : env.client.fromStorage with
  | error e =>
    obtain ⟨m, hm⟩ := catchEvent_is_emitErr "Download failed: " e
    refine ⟨rfl, ?_⟩
    try simp only []
    rw [hm]
    exact lastOf4 _ _ _ _ rfl
  | ok u2 =>
    cases u2
    try simp only []
    cases hd : env.client.download_slide_deck nb
        (unique_path env.files (mkPyPath outDir (match nm with
          | some n => if n == "" then "slides.pdf" else n ++ "_slides.pdf"
          | none => "slides.pdf"))).toStr artifactId with
    | error e =>
      try rw [hd]
      obtain ⟨m, hm⟩ := catchEvent_is_emitErr "Download failed: " e
      refine ⟨rfl, ?_⟩
      try simp only []
      rw [hm]
      exact lastOfApp _ _ rfl
    | ok dp =>
      try rw [hd]
      exact ⟨rfl, _, Ev.emit "done" ("PDF downloaded: " ++ dp) {output_path := some dp}, rfl, rfl⟩

theorem cmd_check_auth_terminal (env : Env) (has : ∃ x, env.auth.storagePathRes = Except.ok x) :
    (cmd_check_auth env).2 = Outcome.normal ∧
    ∃ evs0 ev, (cmd_check_auth env).1 = evs0 ++ [ev] ∧ ev.isTerminalEv = true := by
  unfold cmd_check_auth
  obtain ⟨sp, hsp⟩ := has
  rw [hsp]
  try simp only []
  by_cases hex : env.auth.storageExists = false
  · rw [if_pos hex]
    exact ⟨rfl, lastOf3 _ _ _ rfl⟩
  · rw [if_neg hex]
    cases htk : env.auth.tokens with
    | ok tk =>
      try rw [htk]
      exact ⟨rfl, lastOf5 _ _ _ _ _ rfl⟩
    | error e =>
      try rw [htk]
      exact ⟨rfl, lastOf4 _ _ _ _ rfl⟩

theorem cmd_login_terminal (env : Env)
    (hlp : ∃ x, env.login.pathsOk = Except.ok x)
    (hll : env.login.launch = Except.ok ())
    (hls : env.login.saveState = Except.ok ()) :
    (cmd_login env).2 = Outcome.normal ∧
    ∃ evs0 ev, (cmd_login env).1 = evs0 ++ [ev] ∧ ev.isTerminalEv = true := by
  unfold cmd_login
  by_cases hpw : env.login.playwrightOk = false
  · rw [if_pos hpw]
    exact ⟨rfl, [], Ev.emitErr "Playwright not installed. Run: pip install playwright && playwright install chromium", rfl, rfl⟩
  · rw [if_neg hpw]
    obtain ⟨sp, hsp⟩ := hlp
    rw [hsp]
    try simp only []
    rw [hll]
    try simp only []
    by_cases hw : (loginLoop env.login 150 0 0).2 ≥ 300
    · rw [if_pos hw]
      exact ⟨rfl, lastOfApp _ _ rfl⟩
    · rw [if_neg hw]
      rw [hls]
      exact ⟨rfl, lastOfApp _ _ rfl⟩

/-! ### C6: uncaught failures at the process boundary -/

/-- An environment identical to the base one except that creating the output
directory fails with a FileExistsError (the directory path already exists as
a regular file). -/
def envMkdirFail : Env :=
  { envBase with mkdirRes := fun _ => Except.error ⟨"FileExistsError", "out is a file"⟩ }

/-- C6 counterexample: a process command whose output-directory creation
fails escapes the process boundary uncaught.  The run ends in the uncaught
outcome instead of the normal one, and no event of the trace is an error
event or a terminal done or error event. -/
theorem c6_uncaught_mkdir :
    mainRun envMkdirFail ["prog", "process", "in/doc.txt", "out"] =
      ([Ev.mkdir "out"], Outcome.uncaught ⟨"FileExistsError", "out is a file"⟩) ∧
    (mainRun envMkdirFail ["prog", "process", "in/doc.txt", "out"]).2 ≠ Outcome.normal ∧
    ∀ ev ∈ (mainRun envMkdirFail ["prog", "process", "in/doc.txt", "out"]).1,
      ev.isErrorEv = false ∧ ev.isTerminalEv = false := by
  refine ⟨rfl, by decide, ?_⟩
  intro ev hev
  have h : mainRun envMkdirFail ["prog", "process", "in/doc.txt", "out"] =
      ([Ev.mkdir "out"], Outcome.uncaught ⟨"FileExistsError", "out is a file"⟩) := rfl
  rw [h] at hev
  simp only [List.mem_cons, List.not_mem_nil, or_false] at hev
  subst hev
  exact ⟨rfl, rfl⟩

/-- C6 (amended): whenever the unguarded steps succeed, that is, creating
the output directory in process and download, the login storage-path setup,
browser launch and state save, and the check-auth storage path lookup, every
other failure is caught inside the guarded try blocks and converted to an
error event, and every run of the dispatcher exits normally after emitting a
terminal done or error event. -/
theorem c6_dispatcher_terminal (env : Env) (argv : List String)
    (hmk : ∀ d, ∃ u, env.mkdirRes d = Except.ok u)
    (hlp : ∃ x, env.login.pathsOk = Except.ok x)
    (hll : env.login.launch = Except.ok ())
    (hls : env.login.saveState = Except.ok ())
    (has : ∃ x, env.auth.storagePathRes = Except.ok x) :
    (mainRun env argv).2 = Outcome.normal ∧
    ∃ evs0 ev, (mainRun env argv).1 = evs0 ++ [ev] ∧ ev.isTerminalEv = true := by
  match argv with
  | [] => exact ⟨rfl, lastOf1 _ rfl⟩
  | [p] => exact ⟨rfl, lastOf1 _ rfl⟩
  | p :: cmd :: args =>
    unfold mainRun
    try simp only []
    by_cases h1 : (cmd == "login") = true
    · rw [if_pos h1]
      exact cmd_login_terminal env hlp hll hls
    · rw [if_neg h1]
      by_cases h2 : (cmd == "check-auth") = true
      · rw [if_pos h2]
        exact cmd_check_auth_terminal env has
      · rw [if_neg h2]
        by_cases h3 : (cmd == "process") = true
        · rw [if_pos h3]
          match args with
          | f :: o :: rest => exact cmd_process_terminal env f o _ _ _ _ hmk
          | [] => exact ⟨rfl, lastOf1 _ rfl⟩
          | [f] => exact ⟨rfl, lastOf1 _ rfl⟩
        · rw [if_neg h3]
          by_cases h4 : (cmd == "find-notebook") = true
          · rw [if_pos h4]
            match args with
            | j :: rest => exact cmd_find_notebook_terminal env j
            | [] => exact ⟨rfl, lastOf1 _ rfl⟩
          · rw [if_neg h4]
            by_cases h5 : (cmd == "check-status") = true
            · rw [if_pos h5]
              match args with
              | a :: b :: rest => exact cmd_check_status_terminal env a b
              | [] => exact ⟨rfl, lastOf1 _ rfl⟩
              | [a] => exact ⟨rfl, lastOf1 _ rfl⟩
            · rw [if_neg h5]
              by_cases h6 : (cmd == "download") = true
              · rw [if_pos h6]
                match args with
                | a :: b :: rest => exact cmd_download_terminal env a b _ _ hmk
                | [] => exact ⟨rfl, lastOf1 _ rfl⟩
                | [a] => exact ⟨rfl, lastOf1 _ rfl⟩
              · rw [if_neg h6]
                exact ⟨rfl, lastOf1 _ rfl⟩

/-- C6 witness: the amended theorem at the base environment on a concrete
check-status command line. -/
theorem c6_dispatcher_terminal_witness :
    (mainRun envBase ["p", "check-status", "nb1", "task1"]).2 = Outcome.normal ∧
    ∃ evs0 ev, (mainRun envBase ["p", "check-status", "nb1", "task1"]).1 = evs0 ++ [ev] ∧
      ev.isTerminalEv = true :=
  c6_dispatcher_terminal envBase ["p", "check-status", "nb1", "task1"]
    (fun d => ⟨(), rfl⟩) ⟨"/home/u/.notebooklm/storage.json", rfl⟩ rfl rfl
    ⟨"/home/u/.notebooklm/storage.json", rfl⟩
